import Mathlib

/-!
Verification development for the opqua simulation core
(`src/opqua/internal/population.py` and `src/opqua/internal/gillespie.py`).

The Python code is shallowly embedded over exact rationals (`ℚ` in place of
floats), lists of rows in place of numpy 2-D arrays, and association lists in
place of Python dicts (which preserve insertion order).  Python's in-place
mutation is rendered as explicit state passing; a raised exception is an
`Except.error`.  Randomness (numpy's global generator) is abstracted by
explicit oracle streams supplied as arguments, so every theorem quantifies
over the random draws.

The `Host` and `Vector` classes are not part of the sources; they are
external collaborators specified only by their contract.  Everything about
them is modelled from the spec and marked as such in doc comments.
-/

/-- Association-list lookup with default, modelling `dict[key]` access on a
Python dict whose key is known to be present (a missing key, which would raise
`KeyError`, is rendered as the default). -/
def assocGetD (l : List (String × α)) (key : String) (d : α) : α :=
  match l.find? (fun kv => kv.1 == key) with
  | some kv => kv.2
  | none => d

/-- Association-list update, modelling `dict[key] = value`: replaces the value
at an existing key in place, otherwise appends (Python dicts keep insertion
order). -/
def assocSet (l : List (String × α)) (key : String) (v : α) : List (String × α) :=
  match l with
  | [] => [(key, v)]
  | kv :: rest =>
    if kv.1 == key then (key, v) :: rest else kv :: assocSet rest key v

/-- Removes the first element satisfying the predicate, modelling Python's
`list.remove(x)` (which removes the first occurrence; all our membership tests
use the unique object identity `oid`). -/
def pyRemove (p : α → Bool) : List α → List α
  | [] => []
  | x :: xs => if p x then xs else x :: pyRemove p xs

/-- Deletes the row at the given index, modelling `np.delete(matrix, idx, 0)`
on a 2-D coefficient matrix represented as a list of rows. (numpy raises on an
out-of-range index; that situation is never reached in the claims and is
rendered as a no-op here.) -/
def npDeleteRow (rows : List α) (idx : ℕ) : List α :=
  rows.take idx ++ rows.drop (idx + 1)

/-- Increment-or-insert on an insertion-ordered genome → multiplicity map.
Modelled from the spec: each Host/Vector "holds a mapping genome→multiplicity
of carried pathogens"; acquiring a pathogen adds one copy of its genome. -/
def incrGenome (pathogens : List (String × ℕ)) (genome : String) : List (String × ℕ) :=
  match pathogens with
  | [] => [(genome, 1)]
  | gm :: rest =>
    if gm.1 == genome then (gm.1, gm.2 + 1) :: rest else gm :: incrGenome rest genome

/-- One live individual (a Host or a Vector; the two Python classes expose the
same contract).  `oid` is an embedding artifact modelling Python object
identity: list membership and `list.remove` in the source compare objects by
identity, which we render as equality of `oid`s (allocated uniquely by the
owning population's `next_oid` counter). -/
structure Individual where
  oid : ℕ
  id : String
  pathogens : List (String × ℕ)
  sum_fitness : ℚ
  coefficient_index : ℕ
  protection_sequences : List String
deriving DecidableEq, Repr

/-- External contract of the Host/Vector genome mechanics (spec §1 excludes
them from the core; §6 fixes their interface).  `rowOfHost`/`rowOfVector`
model the primitive "responsible for updating its own coefficient row in the
owning Population" as a function from the individual's state to its 8-entry
coefficient row; `infect*` and `mutate`/`recombine` model the corresponding
mutating primitives. `infectIndividual origin target` returns the updated
target and whether the model changed state. -/
structure HVExt where
  fitnessHost : String → ℚ
  fitnessVector : String → ℚ
  rowOfHost : Individual → List ℚ
  rowOfVector : Individual → List ℚ
  infectIndividual : Individual → Individual → Individual × Bool
  mutateIndividual : ℚ → Individual → Individual
  recombineIndividual : ℚ → Individual → Individual

/-- Setup parameters read by `Population.setSetup` (external read-only record;
only the non-function fields are carried here, the fitness/coefficient
functions being part of `Ext`).  `possible_alleles` is indexed per locus, as
`Population.addPathogensToHosts` does with `self.possible_alleles[i]`. -/
structure Setup where
  num_loci : ℕ
  possible_alleles : List (List Char)
  contact_rate_host_vector : ℚ
  contact_rate_host_host : ℚ
  mean_inoculum_host : ℕ
  mean_inoculum_vector : ℕ
  recovery_rate_host : ℚ
  recovery_rate_vector : ℚ
  recombine_in_host : ℚ
  recombine_in_vector : ℚ
  num_crossover_host : ℕ
  num_crossover_vector : ℕ
  mutate_in_host : ℚ
  mutate_in_vector : ℚ
  death_rate_host : ℚ
  death_rate_vector : ℚ
deriving DecidableEq, Repr

/-- State of one `Population` (class `Population`, population.py).  The
coefficient matrices are lists of 8-entry rows; `infected_hosts`,
`healthy_hosts` and `infected_vectors` store the `oid`s of the referenced live
individuals (Python stores aliases of the same objects; identity = `oid`).
Neighbor maps are insertion-ordered association lists keyed by population id.
`next_oid` is the identity allocator (embedding artifact). -/
structure Population where
  id : String
  next_oid : ℕ
  coefficients_hosts : List (List ℚ)
  coefficients_vectors : List (List ℚ)
  hosts : List Individual
  vectors : List Individual
  infected_hosts : List ℕ
  healthy_hosts : List ℕ
  infected_vectors : List ℕ
  dead_hosts : List Individual
  dead_vectors : List Individual
  neighbors_hosts : List (String × ℚ)
  neighbors_vectors : List (String × ℚ)
  total_migration_rate_hosts : ℚ
  total_migration_rate_vectors : ℚ
  neighbors_contact_hosts : List (String × ℚ)
  neighbors_contact_vectors : List (String × ℚ)
  total_population_contact_rate_host_host : ℚ
  total_population_contact_rate_host_vector : ℚ
  total_population_contact_rate_vector_host : ℚ
  num_loci : ℕ
  possible_alleles : List (List Char)
  contact_rate_host_vector : ℚ
  contact_rate_host_host : ℚ
  mean_inoculum_host : ℕ
  mean_inoculum_vector : ℕ
  recovery_rate_host : ℚ
  recovery_rate_vector : ℚ
  recombine_in_host : ℚ
  recombine_in_vector : ℚ
  num_crossover_host : ℕ
  num_crossover_vector : ℕ
  mutate_in_host : ℚ
  mutate_in_vector : ℚ
  death_rate_host : ℚ
  death_rate_vector : ℚ
deriving DecidableEq, Repr

/-- Column positions of the eight per-individual rate coefficients
(constants `INFECTED` … `RECOMBINATION` of class `Population`). -/
def Population.INFECTED : ℕ := 0
def Population.CONTACT : ℕ := 1
def Population.LETHALITY : ℕ := 2
def Population.RECOVERY : ℕ := 3
def Population.MIGRATION : ℕ := 4
def Population.POPULATION_CONTACT : ℕ := 5
def Population.MUTATION : ℕ := 6
def Population.RECOMBINATION : ℕ := 7
def Population.NUM_COEFFICIENTS : ℕ := 8

/-- A coefficient column as a list, `matrix[:, c]`. -/
def colOf (rows : List (List ℚ)) (c : ℕ) : List ℚ :=
  rows.map (fun row => row.getD c 0)

/-- Sum of a coefficient column, `matrix[:, c].sum()`. -/
def colSum (rows : List (List ℚ)) (c : ℕ) : ℚ :=
  (colOf rows c).sum

/-- Mean of a coefficient column, `matrix[:, c].mean()`.  On an empty matrix
numpy produces NaN; with rational division this is `0/0 = 0` — the claims
never evaluate a mean over an empty population. -/
def colMean (rows : List (List ℚ)) (c : ℕ) : ℚ :=
  colSum rows c / rows.length

/-- `np.multiply(1 - matrix[:, c1], matrix[:, c2]).sum()`, the recurring
"(1 − coefficient) × infected-coefficient" reduction of the rate engine. -/
def oneMinusTimesSum (rows : List (List ℚ)) (c1 c2 : ℕ) : ℚ :=
  (rows.map (fun row => (1 - row.getD c1 0) * row.getD c2 0)).sum

/-- `Population.getWeightedRandom` (population.py lines 1082-1099), the scan
of the weight vector: helper carrying the running cumulative rate `r_cum`
(here `acc`) and the index of the element under inspection.  Returns `none`
when no element's cumulative rate exceeds `u` (Python would fall off the loop
and implicitly return `None`, which makes the caller's tuple unpacking raise
`TypeError`). -/
def gwrAux (u : ℚ) : ℚ → ℕ → List ℚ → Option (ℕ × ℚ)
  | _, _, [] => none
  | acc, i, e :: rest =>
    let c := acc + e
    if u < c then some (i, (u - c + e) / e) else gwrAux u c (i + 1) rest

/-- `Population.getWeightedRandom(rand, r)`: scales the 0-1 draw by the total
weight and scans cumulatively, returning the selected index together with the
renormalized residual draw `(u - r_cum + e) / e`. -/
def getWeightedRandom (rand : ℚ) (r : List ℚ) : Option (ℕ × ℚ) :=
  let r_tot := r.sum
  let u := rand * r_tot
  gwrAux u 0 0 r

/-- Updates the first element satisfying the predicate (Python mutates the
single aliased object; identity is matched by `oid`). -/
def pyUpdateFirst (pr : α → Bool) (f : α → α) : List α → List α
  | [] => []
  | x :: xs => if pr x then f x :: xs else x :: pyUpdateFirst pr f xs

/-- Modelled from the spec: `Host.acquirePathogen(genome)` / the
"pathogen-acquisition primitive" (spec §4.1, §6), which is not under `src/`.
It adds one copy of the genome to the individual's genome→multiplicity
mapping, accumulates the genome's fitness into `sum_fitness`, rewrites the
individual's own coefficient row in the owning population (through the
external `rowOfHost` contract), and moves the individual from the healthy to
the infected set ("an individual is infected iff it carries ≥1 pathogen"). -/
def hostAcquirePathogen (ext : HVExt) (p : Population) (oidKey : ℕ) (genome : String) :
    Population :=
  match p.hosts.find? (fun h => h.oid == oidKey) with
  | none => p
  | some h =>
    let h' := { h with pathogens := incrGenome h.pathogens genome,
                       sum_fitness := h.sum_fitness + ext.fitnessHost genome }
    let hosts' := pyUpdateFirst (fun x => x.oid == oidKey) (fun _ => h') p.hosts
    let coeff' := p.coefficients_hosts.set h'.coefficient_index (ext.rowOfHost h')
    if p.infected_hosts.contains h.oid then
      { p with hosts := hosts', coefficients_hosts := coeff' }
    else
      { p with hosts := hosts', coefficients_hosts := coeff',
               infected_hosts := p.infected_hosts ++ [h.oid],
               healthy_hosts := pyRemove (fun x => x == h.oid) p.healthy_hosts }

/-- Modelled from the spec: `Vector.acquirePathogen(genome)`, the vector-side
analogue of `hostAcquirePathogen` (vectors have no healthy list; infection
membership is tracked in `infected_vectors` only). -/
def vectorAcquirePathogen (ext : HVExt) (p : Population) (oidKey : ℕ) (genome : String) :
    Population :=
  match p.vectors.find? (fun v => v.oid == oidKey) with
  | none => p
  | some v =>
    let v' := { v with pathogens := incrGenome v.pathogens genome,
                       sum_fitness := v.sum_fitness + ext.fitnessVector genome }
    let vectors' := pyUpdateFirst (fun x => x.oid == oidKey) (fun _ => v') p.vectors
    let coeff' := p.coefficients_vectors.set v'.coefficient_index (ext.rowOfVector v')
    if p.infected_vectors.contains v.oid then
      { p with vectors := vectors', coefficients_vectors := coeff' }
    else
      { p with vectors := vectors', coefficients_vectors := coeff',
               infected_vectors := p.infected_vectors ++ [v.oid] }

/-- Modelled from the spec: `Host.__init__` (not under `src/`).  Deduced from
`Population.__init__` (population.py lines 90-116, the dummy-row dance) and
the `addHosts` contract ("a new coefficient row, initialized to zero"): the
constructor appends a zero row to the owning population's host coefficient
matrix and records that row's index as its `coefficient_index`. -/
def hostInit (p : Population) (hid : String) : Population × Individual :=
  let h : Individual :=
    { oid := p.next_oid, id := hid, pathogens := [], sum_fitness := 0,
      coefficient_index := p.coefficients_hosts.length, protection_sequences := [] }
  ({ p with next_oid := p.next_oid + 1,
            coefficients_hosts :=
              p.coefficients_hosts ++ [List.replicate Population.NUM_COEFFICIENTS 0] }, h)

/-- Modelled from the spec: `Vector.__init__`, vector-side analogue of
`hostInit`. -/
def vectorInit (p : Population) (vid : String) : Population × Individual :=
  let v : Individual :=
    { oid := p.next_oid, id := vid, pathogens := [], sum_fitness := 0,
      coefficient_index := p.coefficients_vectors.length, protection_sequences := [] }
  ({ p with next_oid := p.next_oid + 1,
            coefficients_vectors :=
              p.coefficients_vectors ++ [List.replicate Population.NUM_COEFFICIENTS 0] }, v)

/-- `Population.addHosts` (population.py lines 256-274): appends `num_hosts`
fresh healthy hosts; ids use the pre-call length of the live list, and the
coefficient row/`coefficient_index` bookkeeping happens in the Host
constructor. -/
def Population.addHosts (p : Population) (num_hosts : ℕ) :
    Population × List Individual :=
  let n0 := p.hosts.length
  let built := (List.range num_hosts).foldl
    (fun (acc : Population × List Individual) i =>
      let (q, hs) := acc
      let (q1, h) := hostInit q (p.id ++ "_" ++ toString (i + n0))
      (q1, hs ++ [h]))
    (p, [])
  let (p1, new_hosts) := built
  ({ p1 with hosts := p1.hosts ++ new_hosts,
             healthy_hosts := p1.healthy_hosts ++ new_hosts.map (fun h => h.oid) },
   new_hosts)

/-- `Population.addVectors` (population.py lines 276-293): appends fresh
vectors (vectors have no healthy list to maintain). -/
def Population.addVectors (p : Population) (num_vectors : ℕ) :
    Population × List Individual :=
  let n0 := p.vectors.length
  let built := (List.range num_vectors).foldl
    (fun (acc : Population × List Individual) i =>
      let (q, vs) := acc
      let (q1, v) := vectorInit q (p.id ++ "_" ++ toString (i + n0))
      (q1, vs ++ [v]))
    (p, [])
  let (p1, new_vectors) := built
  ({ p1 with vectors := p1.vectors ++ new_vectors }, new_vectors)

/-- `Population.removeHosts` (population.py lines 393-435), the
list-argument branch (lines 402-418): for each listed host still present, the
host is removed from its infected/healthy set and from the live list, every
remaining host with a greater `coefficient_index` is decremented, and the
host's row is deleted from the host coefficient matrix.  (The integer-count
branch draws victims from the external RNG and is not needed by any claim.)
Each victim is re-resolved by identity against the current live list, since
Python reads `host_removed.coefficient_index` from the aliased object. -/
def Population.removeHosts (p : Population) (victims : List Individual) : Population :=
  victims.foldl
    (fun q v =>
      match q.hosts.find? (fun h => h.oid == v.oid) with
      | none => q
      | some cur =>
        let q1 :=
          if q.infected_hosts.contains cur.oid then
            { q with infected_hosts := pyRemove (fun x => x == cur.oid) q.infected_hosts }
          else
            { q with healthy_hosts := pyRemove (fun x => x == cur.oid) q.healthy_hosts }
        let hosts1 := pyRemove (fun h => h.oid == cur.oid) q1.hosts
        let hosts2 := hosts1.map (fun h =>
          if cur.coefficient_index < h.coefficient_index then
            { h with coefficient_index := h.coefficient_index - 1 }
          else h)
        { q1 with hosts := hosts2,
                  coefficients_hosts := npDeleteRow q1.coefficients_hosts cur.coefficient_index })
    p

/-- `Population.removeVectors` (population.py lines 437-475), list-argument
branch.  Translated faithfully, including the defect at lines 457-460: the
row is deleted from `self.coefficients_hosts` — the HOST coefficient matrix —
rather than from `self.coefficients_vectors`, so the vector matrix keeps the
removed vector's row while the host matrix loses a live host's row.  (The
integer-count branch additionally references the undefined name
`num_vectors` at line 462 and would raise `NameError`.) -/
def Population.removeVectors (p : Population) (victims : List Individual) : Population :=
  victims.foldl
    (fun q v =>
      match q.vectors.find? (fun w => w.oid == v.oid) with
      | none => q
      | some cur =>
        let q1 :=
          if q.infected_vectors.contains cur.oid then
            { q with infected_vectors := pyRemove (fun x => x == cur.oid) q.infected_vectors }
          else q
        let vectors1 := pyRemove (fun w => w.oid == cur.oid) q1.vectors
        let vectors2 := vectors1.map (fun w =>
          if cur.coefficient_index < w.coefficient_index then
            { w with coefficient_index := w.coefficient_index - 1 }
          else w)
        { q1 with vectors := vectors2,
                  coefficients_hosts := npDeleteRow q1.coefficients_hosts cur.coefficient_index })
    p

/-- The genome validation of `Population.addPathogensToHosts` /
`addPathogensToVectors` (population.py lines 494-497 and 528-531):
`len(genome) == num_loci` and, for every position `i`, the allele is a member
of `possible_alleles[i]`. -/
def validGenome (num_loci : ℕ) (alphabet : List (List Char)) (genome : String) : Bool :=
  genome.length == num_loci &&
    genome.data.enum.all (fun ia => (alphabet.getD ia.1 []).contains ia.2)

/-- Models `np.random.choice(pool, n, replace=False)`: the oracle chooses, at
each step, an index into the remaining pool.  numpy raises `ValueError` when
asked for more distinct elements than the pool holds. -/
def npChoiceAux (oracle : ℕ → ℕ) : ℕ → List α → ℕ → Except String (List α)
  | _, _, 0 => .ok []
  | step, pool, n + 1 =>
    match pool.get? (oracle step % pool.length) with
    | none => .error "ValueError: cannot take a larger sample than population"
    | some x =>
      (npChoiceAux oracle (step + 1) (pool.eraseIdx (oracle step % pool.length)) n).map
        (fun xs => x :: xs)

/-- `np.random.choice(pool, n, replace=False)` with oracle-supplied draws. -/
def npRandomChoice (oracle : ℕ → ℕ) (pool : List α) (n : ℕ) : Except String (List α) :=
  npChoiceAux oracle 0 pool n

/-- Loop body of `Population.addPathogensToHosts` (population.py lines
493-509): iterates the genome→count dictionary in insertion order; a valid
genome is given to `count` sampled hosts through the acquisition primitive, an
invalid genome raises `ValueError` — at which point the additions already
performed for earlier genomes remain in place (Python mutates `self`
before raising).  The second component is the raised exception, if any;
`gi` indexes the per-genome oracle stream. -/
def addPathogensToHostsAux (ext : HVExt) (oracle : ℕ → ℕ → ℕ) (gi : ℕ) (pool : List ℕ)
    (p : Population) : List (String × ℕ) → Population × Option String
  | [] => (p, none)
  | (genome, number) :: rest =>
    if validGenome p.num_loci p.possible_alleles genome then
      match npRandomChoice (oracle gi) pool number with
      | .error e => (p, some e)
      | .ok chosen =>
        let p1 := chosen.foldl (fun q oidK => hostAcquirePathogen ext q oidK genome) p
        addPathogensToHostsAux ext oracle (gi + 1) pool p1 rest
    else
      (p, some ("ValueError: Genome " ++ genome ++ " must be of length "
        ++ toString p.num_loci ++ " and contain only allowed characters"))

/-- `Population.addPathogensToHosts(genomes_numbers, hosts)` (population.py
lines 477-509).  An empty `hosts` argument means "sample from the whole
population"; the pool is fixed (by identity) before the loop starts. -/
def Population.addPathogensToHosts (ext : HVExt) (oracle : ℕ → ℕ → ℕ) (p : Population)
    (genomes_numbers : List (String × ℕ)) (hostsArg : List Individual) :
    Population × Option String :=
  let pool := (if hostsArg.isEmpty then p.hosts else hostsArg).map (fun h => h.oid)
  addPathogensToHostsAux ext oracle 0 pool p genomes_numbers

/-- Loop body of `Population.addPathogensToVectors` (population.py lines
527-543), vector-side analogue of `addPathogensToHostsAux`. -/
def addPathogensToVectorsAux (ext : HVExt) (oracle : ℕ → ℕ → ℕ) (gi : ℕ) (pool : List ℕ)
    (p : Population) : List (String × ℕ) → Population × Option String
  | [] => (p, none)
  | (genome, number) :: rest =>
    if validGenome p.num_loci p.possible_alleles genome then
      match npRandomChoice (oracle gi) pool number with
      | .error e => (p, some e)
      | .ok chosen =>
        let p1 := chosen.foldl (fun q oidK => vectorAcquirePathogen ext q oidK genome) p
        addPathogensToVectorsAux ext oracle (gi + 1) pool p1 rest
    else
      (p, some ("ValueError: Genome " ++ genome ++ " must be of length "
        ++ toString p.num_loci ++ " and contain only allowed characters"))

/-- `Population.addPathogensToVectors(genomes_numbers, vectors)`
(population.py lines 511-543). -/
def Population.addPathogensToVectors (ext : HVExt) (oracle : ℕ → ℕ → ℕ) (p : Population)
    (genomes_numbers : List (String × ℕ)) (vectorsArg : List Individual) :
    Population × Option String :=
  let pool := (if vectorsArg.isEmpty then p.vectors else vectorsArg).map (fun v => v.oid)
  addPathogensToVectorsAux ext oracle 0 pool p genomes_numbers

/-- Body of the host-migration loop of `Population.migrate` (population.py
lines 762-767): reads the migrating host's genome set with every multiplicity
collapsed to 1 (`{ g:1 for g in host.pathogens }` iterates the dict's keys),
removes the host from the origin, creates one fresh host in the target and
gives it those genomes through `addPathogensToHosts`.  A validation error
raised inside the target's `addPathogensToHosts` propagates (the origin has
already been mutated at that point; no claim exercises that path). -/
def migrateMoveHost (ext : HVExt) (oracle : ℕ → ℕ → ℕ) (origin target : Population)
    (host : Individual) : Except String (Population × Population) :=
  let genomes := host.pathogens.map (fun gm => (gm.1, 1))
  let origin1 := Population.removeHosts origin [host]
  let (target1, new_host_list) := Population.addHosts target 1
  let (target2, err) :=
    Population.addPathogensToHosts ext oracle target1 genomes new_host_list
  match err with
  | some e => .error e
  | none => .ok (origin1, target2)

/-- Body of the vector-migration loop of `Population.migrate` (population.py
lines 769-774), vector-side analogue of `migrateMoveHost` (and therefore
subject to the `removeVectors` matrix defect on the origin side). -/
def migrateMoveVector (ext : HVExt) (oracle : ℕ → ℕ → ℕ) (origin target : Population)
    (vector : Individual) : Except String (Population × Population) :=
  let genomes := vector.pathogens.map (fun gm => (gm.1, 1))
  let origin1 := Population.removeVectors origin [vector]
  let (target1, new_vector_list) := Population.addVectors target 1
  let (target2, err) :=
    Population.addPathogensToVectors ext oracle target1 genomes new_vector_list
  match err with
  | some e => .error e
  | none => .ok (origin1, target2)

/-- `Population.migrate(target_pop, num_hosts, num_vectors, rand)`
(population.py lines 730-774).  With `rand = none` (the bulk/deterministic
mode) the source draws `np.random.choice(..., p = MIGRATION column)`; numpy
requires `p` to be a probability vector (raising `ValueError` otherwise), and
the weighted outcome is external randomness — it is modelled by the oracle
choosing the index sequence.  With a supplied `rand`, `num_hosts == 1` moves
exactly one host chosen by `getWeightedRandom` on the hosts' MIGRATION
column, and any other value moves exactly one vector chosen on the vectors'
MIGRATION column; a `None` from `getWeightedRandom` (all-zero weights) makes
the tuple unpacking raise `TypeError`. -/
def Population.migrate (ext : HVExt) (oracle : ℕ → ℕ → ℕ) (origin target : Population)
    (num_hosts num_vectors : ℕ) (rand : Option ℚ) :
    Except String (Population × Population) :=
  match rand with
  | none =>
    if (colOf origin.coefficients_hosts Population.MIGRATION).sum ≠ 1 ∨
        (colOf origin.coefficients_vectors Population.MIGRATION).sum ≠ 1 then
      .error "ValueError: probabilities do not sum to 1"
    else
      match npRandomChoice (oracle 0) origin.hosts num_hosts,
          npRandomChoice (oracle 1) origin.vectors num_vectors with
      | .error e, _ => .error e
      | _, .error e => .error e
      | .ok migrating_hosts, .ok migrating_vectors =>
        (migrating_hosts.foldlM
          (fun (st : Population × Population) h =>
            migrateMoveHost ext oracle st.1 st.2 h) (origin, target)).bind
          (fun st =>
            migrating_vectors.foldlM
              (fun (st2 : Population × Population) v =>
                migrateMoveVector ext oracle st2.1 st2.2 v) st)
  | some r =>
    if num_hosts == 1 then
      match getWeightedRandom r (colOf origin.coefficients_hosts Population.MIGRATION) with
      | none => .error "TypeError: cannot unpack NoneType"
      | some iv =>
        match origin.hosts.get? iv.1 with
        | none => .error "IndexError: hosts index out of range"
        | some host => migrateMoveHost ext oracle origin target host
    else
      match getWeightedRandom r (colOf origin.coefficients_vectors Population.MIGRATION) with
      | none => .error "TypeError: cannot unpack NoneType"
      | some iv =>
        match origin.vectors.get? iv.1 with
        | none => .error "IndexError: vectors index out of range"
        | some vector => migrateMoveVector ext oracle origin target vector

/-- Modelled from the spec (§6 contract): the effect, on the owning
population, of `origin.infectHost(target_host)` — the external infection
primitive updates the target host's state and its coefficient row, and the
population's infected/healthy membership follows "infected iff it carries ≥1
pathogen".  Returns the updated population and the primitive's changed flag. -/
def applyInfectHost (ext : HVExt) (p : Population) (origin : Individual) (targetOid : ℕ) :
    Population × Bool :=
  match p.hosts.find? (fun h => h.oid == targetOid) with
  | none => (p, false)
  | some tgt =>
    let res := ext.infectIndividual origin tgt
    let tgt' := res.1
    let hosts' := pyUpdateFirst (fun x => x.oid == targetOid) (fun _ => tgt') p.hosts
    let coeff' := p.coefficients_hosts.set tgt'.coefficient_index (ext.rowOfHost tgt')
    let p1 := { p with hosts := hosts', coefficients_hosts := coeff' }
    if tgt'.pathogens.isEmpty || p.infected_hosts.contains targetOid then
      (p1, res.2)
    else
      ({ p1 with infected_hosts := p1.infected_hosts ++ [targetOid],
                 healthy_hosts := pyRemove (fun x => x == targetOid) p1.healthy_hosts },
       res.2)

/-- Modelled from the spec (§6 contract): the effect of
`origin.infectVector(target_vector)` on the owning population. -/
def applyInfectVector (ext : HVExt) (p : Population) (origin : Individual) (targetOid : ℕ) :
    Population × Bool :=
  match p.vectors.find? (fun v => v.oid == targetOid) with
  | none => (p, false)
  | some tgt =>
    let res := ext.infectIndividual origin tgt
    let tgt' := res.1
    let vectors' := pyUpdateFirst (fun x => x.oid == targetOid) (fun _ => tgt') p.vectors
    let coeff' := p.coefficients_vectors.set tgt'.coefficient_index (ext.rowOfVector tgt')
    let p1 := { p with vectors := vectors', coefficients_vectors := coeff' }
    if tgt'.pathogens.isEmpty || p.infected_vectors.contains targetOid then
      (p1, res.2)
    else
      ({ p1 with infected_vectors := p1.infected_vectors ++ [targetOid] }, res.2)

/-- `Population.contactHostHost(rand)` (population.py lines 839-866): selects
an origin host weighted by `(1 − CONTACT) × INFECTED`, a second host weighted
by `1 − CONTACT`, lets the first infect the second, and returns the infection
primitive's changed flag. -/
def Population.contactHostHost (ext : HVExt) (p : Population) (rand : ℚ) :
    Except String (Population × Bool) :=
  match getWeightedRandom rand
      (p.coefficients_hosts.map (fun row =>
        (1 - row.getD Population.CONTACT 0) * row.getD Population.INFECTED 0)) with
  | none => .error "TypeError: cannot unpack NoneType"
  | some ir1 =>
    match getWeightedRandom ir1.2
        (p.coefficients_hosts.map (fun row => 1 - row.getD Population.CONTACT 0)) with
    | none => .error "TypeError: cannot unpack NoneType"
    | some ir2 =>
      match p.hosts.get? ir1.1, p.hosts.get? ir2.1 with
      | some origin, some other => .ok (applyInfectHost ext p origin other.oid)
      | _, _ => .error "IndexError: hosts index out of range"

/-- `Population.contactHostVector(rand)` (population.py lines 868-894). -/
def Population.contactHostVector (ext : HVExt) (p : Population) (rand : ℚ) :
    Except String (Population × Bool) :=
  match getWeightedRandom rand
      (p.coefficients_hosts.map (fun row =>
        (1 - row.getD Population.CONTACT 0) * row.getD Population.INFECTED 0)) with
  | none => .error "TypeError: cannot unpack NoneType"
  | some ir1 =>
    match getWeightedRandom ir1.2
        (p.coefficients_vectors.map (fun row => 1 - row.getD Population.CONTACT 0)) with
    | none => .error "TypeError: cannot unpack NoneType"
    | some ir2 =>
      match p.hosts.get? ir1.1, p.vectors.get? ir2.1 with
      | some origin, some tgt => .ok (applyInfectVector ext p origin tgt.oid)
      | _, _ => .error "IndexError: index out of range"

/-- `Population.contactVectorHost(rand)` (population.py lines 896-923). -/
def Population.contactVectorHost (ext : HVExt) (p : Population) (rand : ℚ) :
    Except String (Population × Bool) :=
  match getWeightedRandom rand
      (p.coefficients_vectors.map (fun row =>
        (1 - row.getD Population.CONTACT 0) * row.getD Population.INFECTED 0)) with
  | none => .error "TypeError: cannot unpack NoneType"
  | some ir1 =>
    match getWeightedRandom ir1.2
        (p.coefficients_hosts.map (fun row => 1 - row.getD Population.CONTACT 0)) with
    | none => .error "TypeError: cannot unpack NoneType"
    | some ir2 =>
      match p.vectors.get? ir1.1, p.hosts.get? ir2.1 with
      | some origin, some tgt => .ok (applyInfectHost ext p origin tgt.oid)
      | _, _ => .error "IndexError: index out of range"

/-- `Population.populationContact(target_pop, rand, host_origin, host_target)`
(population.py lines 798-837): one origin individual weighted by
`POPULATION_CONTACT × INFECTED`, one target individual in the other
population weighted by its `POPULATION_CONTACT` column, then the origin's
infection primitive is applied to the target.  The Python method has no
return statement (it returns `None`). -/
def Population.populationContact (ext : HVExt) (p target_pop : Population) (rand : ℚ)
    (host_origin host_target : Bool) : Except String (Population × Population) :=
  let originSel :=
    if host_origin then
      (getWeightedRandom rand
        (p.coefficients_hosts.map (fun row =>
          row.getD Population.POPULATION_CONTACT 0 * row.getD Population.INFECTED 0))).bind
        (fun ir => (p.hosts.get? ir.1).map (fun h => (h, ir.2)))
    else
      (getWeightedRandom rand
        (p.coefficients_vectors.map (fun row =>
          row.getD Population.POPULATION_CONTACT 0 * row.getD Population.INFECTED 0))).bind
        (fun ir => (p.vectors.get? ir.1).map (fun v => (v, ir.2)))
  match originSel with
  | none => .error "TypeError: cannot unpack NoneType"
  | some (origin, rand1) =>
    if host_target then
      match getWeightedRandom rand1
          (colOf target_pop.coefficients_hosts Population.POPULATION_CONTACT) with
      | none => .error "TypeError: cannot unpack NoneType"
      | some ir2 =>
        match target_pop.hosts.get? ir2.1 with
        | none => .error "IndexError: hosts index out of range"
        | some tgt => .ok (p, (applyInfectHost ext target_pop origin tgt.oid).1)
    else
      match getWeightedRandom rand1
          (colOf target_pop.coefficients_vectors Population.POPULATION_CONTACT) with
      | none => .error "TypeError: cannot unpack NoneType"
      | some ir2 =>
        match target_pop.vectors.get? ir2.1 with
        | none => .error "IndexError: vectors index out of range"
        | some tgt => .ok (p, (applyInfectVector ext target_pop origin tgt.oid).1)

/-- Modelled from the spec: `Host.recover()` (§4.1: "clearing pathogens +
optional protection grant on recovery"; configuration without a protection
sequence).  Clears the host's pathogens, resets its fitness sum and
coefficient row, and moves it from the infected back to the healthy set. -/
def individualRecoverHost (p : Population) (oidKey : ℕ) : Population :=
  match p.hosts.find? (fun h => h.oid == oidKey) with
  | none => p
  | some h =>
    let h' := { h with pathogens := [], sum_fitness := 0 }
    { p with
      hosts := pyUpdateFirst (fun x => x.oid == oidKey) (fun _ => h') p.hosts,
      coefficients_hosts :=
        p.coefficients_hosts.set h.coefficient_index
          (List.replicate Population.NUM_COEFFICIENTS 0),
      infected_hosts := pyRemove (fun x => x == oidKey) p.infected_hosts,
      healthy_hosts :=
        if p.infected_hosts.contains oidKey then p.healthy_hosts ++ [oidKey]
        else p.healthy_hosts }

/-- Modelled from the spec: `Vector.recover()`. -/
def individualRecoverVector (p : Population) (oidKey : ℕ) : Population :=
  match p.vectors.find? (fun v => v.oid == oidKey) with
  | none => p
  | some v =>
    let v' := { v with pathogens := [], sum_fitness := 0 }
    { p with
      vectors := pyUpdateFirst (fun x => x.oid == oidKey) (fun _ => v') p.vectors,
      coefficients_vectors :=
        p.coefficients_vectors.set v.coefficient_index
          (List.replicate Population.NUM_COEFFICIENTS 0),
      infected_vectors := pyRemove (fun x => x == oidKey) p.infected_vectors }

/-- Modelled from the spec: `Host.die()` ("moving to the dead set on kill"):
the individual leaves every live set, its coefficient row is deleted and
later rows shift down (the primitive is "responsible for updating its own
coefficient row in the owning Population"), and it is appended to
`dead_hosts`. -/
def individualDieHost (p : Population) (oidKey : ℕ) : Population :=
  match p.hosts.find? (fun h => h.oid == oidKey) with
  | none => p
  | some h =>
    let hosts1 := pyRemove (fun x => x.oid == oidKey) p.hosts
    let hosts2 := hosts1.map (fun x =>
      if h.coefficient_index < x.coefficient_index then
        { x with coefficient_index := x.coefficient_index - 1 }
      else x)
    { p with
      hosts := hosts2,
      infected_hosts := pyRemove (fun x => x == oidKey) p.infected_hosts,
      healthy_hosts := pyRemove (fun x => x == oidKey) p.healthy_hosts,
      dead_hosts := p.dead_hosts ++ [h],
      coefficients_hosts := npDeleteRow p.coefficients_hosts h.coefficient_index }

/-- Modelled from the spec: `Vector.die()`. -/
def individualDieVector (p : Population) (oidKey : ℕ) : Population :=
  match p.vectors.find? (fun v => v.oid == oidKey) with
  | none => p
  | some v =>
    let vectors1 := pyRemove (fun x => x.oid == oidKey) p.vectors
    let vectors2 := vectors1.map (fun x =>
      if v.coefficient_index < x.coefficient_index then
        { x with coefficient_index := x.coefficient_index - 1 }
      else x)
    { p with
      vectors := vectors2,
      infected_vectors := pyRemove (fun x => x == oidKey) p.infected_vectors,
      dead_vectors := p.dead_vectors ++ [v],
      coefficients_vectors := npDeleteRow p.coefficients_vectors v.coefficient_index }

/-- `Population.recoverHost(rand)` (population.py lines 925-940): selects a
host by weighted draw on the RECOVERY column and recovers it. -/
def Population.recoverHost (p : Population) (rand : ℚ) : Except String Population :=
  match getWeightedRandom rand (colOf p.coefficients_hosts Population.RECOVERY) with
  | none => .error "TypeError: cannot unpack NoneType"
  | some ir =>
    match p.hosts.get? ir.1 with
    | none => .error "IndexError: hosts index out of range"
    | some h => .ok (individualRecoverHost p h.oid)

/-- `Population.recoverVector(rand)` (population.py lines 942-957). -/
def Population.recoverVector (p : Population) (rand : ℚ) : Except String Population :=
  match getWeightedRandom rand (colOf p.coefficients_vectors Population.RECOVERY) with
  | none => .error "TypeError: cannot unpack NoneType"
  | some ir =>
    match p.vectors.get? ir.1 with
    | none => .error "IndexError: vectors index out of range"
    | some v => .ok (individualRecoverVector p v.oid)

/-- `Population.killHost(rand)` (population.py lines 959-971).  The draw on
the hosts' LETHALITY column is bound to the name `index_vector` (line 967),
but line 971 then evaluates `self.hosts[index_host]` — and `index_host` is
never bound in this method, so every call that reaches line 971 raises
`NameError`; a `None` from the weighted draw raises `TypeError` at the
unpacking one line earlier.  Either way the method always raises and no host
ever dies. -/
def Population.killHost (p : Population) (rand : ℚ) : Except String Population :=
  match getWeightedRandom rand (colOf p.coefficients_hosts Population.LETHALITY) with
  | none => .error "TypeError: cannot unpack NoneType"
  | some _ => .error "NameError: name index_host is not defined"

/-- `Population.killVector(rand)` (population.py lines 973-985): selects a
vector by weighted draw on the vectors' LETHALITY column and kills it. -/
def Population.killVector (p : Population) (rand : ℚ) : Except String Population :=
  match getWeightedRandom rand (colOf p.coefficients_vectors Population.LETHALITY) with
  | none => .error "TypeError: cannot unpack NoneType"
  | some ir =>
    match p.vectors.get? ir.1 with
    | none => .error "IndexError: vectors index out of range"
    | some v => .ok (individualDieVector p v.oid)

/-- `Population.mutateHost(rand)` (population.py lines 987-1001): selects a
host on the MUTATION column and applies the external mutation primitive with
the residual draw, the primitive updating its own row. -/
def Population.mutateHost (ext : HVExt) (p : Population) (rand : ℚ) :
    Except String Population :=
  match getWeightedRandom rand (colOf p.coefficients_hosts Population.MUTATION) with
  | none => .error "TypeError: cannot unpack NoneType"
  | some ir =>
    match p.hosts.get? ir.1 with
    | none => .error "IndexError: hosts index out of range"
    | some h =>
      let h' := ext.mutateIndividual ir.2 h
      .ok { p with
        hosts := pyUpdateFirst (fun x => x.oid == h.oid) (fun _ => h') p.hosts,
        coefficients_hosts :=
          p.coefficients_hosts.set h'.coefficient_index (ext.rowOfHost h') }

/-- `Population.mutateVector(rand)` (population.py lines 1003-1018). -/
def Population.mutateVector (ext : HVExt) (p : Population) (rand : ℚ) :
    Except String Population :=
  match getWeightedRandom rand (colOf p.coefficients_vectors Population.MUTATION) with
  | none => .error "TypeError: cannot unpack NoneType"
  | some ir =>
    match p.vectors.get? ir.1 with
    | none => .error "IndexError: vectors index out of range"
    | some v =>
      let v' := ext.mutateIndividual ir.2 v
      .ok { p with
        vectors := pyUpdateFirst (fun x => x.oid == v.oid) (fun _ => v') p.vectors,
        coefficients_vectors :=
          p.coefficients_vectors.set v'.coefficient_index (ext.rowOfVector v') }

/-- `Population.recombineHost(rand)` (population.py lines 1020-1035).  Note
the selection weights come from the MUTATION column (line 1031), not the
RECOMBINATION column. -/
def Population.recombineHost (ext : HVExt) (p : Population) (rand : ℚ) :
    Except String Population :=
  match getWeightedRandom rand (colOf p.coefficients_hosts Population.MUTATION) with
  | none => .error "TypeError: cannot unpack NoneType"
  | some ir =>
    match p.hosts.get? ir.1 with
    | none => .error "IndexError: hosts index out of range"
    | some h =>
      let h' := ext.recombineIndividual ir.2 h
      .ok { p with
        hosts := pyUpdateFirst (fun x => x.oid == h.oid) (fun _ => h') p.hosts,
        coefficients_hosts :=
          p.coefficients_hosts.set h'.coefficient_index (ext.rowOfHost h') }

/-- `Population.recombineVector(rand)` (population.py lines 1037-1052); like
`recombineHost`, it draws on the MUTATION column (line 1048). -/
def Population.recombineVector (ext : HVExt) (p : Population) (rand : ℚ) :
    Except String Population :=
  match getWeightedRandom rand (colOf p.coefficients_vectors Population.MUTATION) with
  | none => .error "TypeError: cannot unpack NoneType"
  | some ir =>
    match p.vectors.get? ir.1 with
    | none => .error "IndexError: vectors index out of range"
    | some v =>
      let v' := ext.recombineIndividual ir.2 v
      .ok { p with
        vectors := pyUpdateFirst (fun x => x.oid == v.oid) (fun _ => v') p.vectors,
        coefficients_vectors :=
          p.coefficients_vectors.set v'.coefficient_index (ext.rowOfVector v') }

/-- `Population.setHostMigrationNeighbor(neighbor, rate)` (population.py
lines 700-713): replaces the neighbor's host-migration rate and keeps the
cached total in sync. -/
def Population.setHostMigrationNeighbor (p : Population) (neighbor : String) (rate : ℚ) :
    Population :=
  let adjusted :=
    if (p.neighbors_hosts.find? (fun kv => kv.1 == neighbor)).isSome then
      p.total_migration_rate_hosts - assocGetD p.neighbors_hosts neighbor 0
    else p.total_migration_rate_hosts
  { p with neighbors_hosts := assocSet p.neighbors_hosts neighbor rate,
           total_migration_rate_hosts := adjusted + rate }

/-- `Population.setVectorMigrationNeighbor(neighbor, rate)` (population.py
lines 715-728). -/
def Population.setVectorMigrationNeighbor (p : Population) (neighbor : String) (rate : ℚ) :
    Population :=
  let adjusted :=
    if (p.neighbors_vectors.find? (fun kv => kv.1 == neighbor)).isSome then
      p.total_migration_rate_vectors - assocGetD p.neighbors_vectors neighbor 0
    else p.total_migration_rate_vectors
  { p with neighbors_vectors := assocSet p.neighbors_vectors neighbor rate,
           total_migration_rate_vectors := adjusted + rate }

/-- `Population.setHostPopulationContactNeighbor(neighbor, rate)`
(population.py lines 776-785): plain dictionary assignment, no cached total. -/
def Population.setHostPopulationContactNeighbor (p : Population) (neighbor : String)
    (rate : ℚ) : Population :=
  { p with neighbors_contact_hosts := assocSet p.neighbors_contact_hosts neighbor rate }

/-- `Population.setVectorPopulationContactNeighbor(neighbor, rate)`
(population.py lines 787-796). -/
def Population.setVectorPopulationContactNeighbor (p : Population) (neighbor : String)
    (rate : ℚ) : Population :=
  { p with neighbors_contact_vectors := assocSet p.neighbors_contact_vectors neighbor rate }

/-- `Population.updateHostCoefficients` (population.py lines 1054-1066):
zeroes the host coefficient matrix shape-preservingly, then replays every
host's genome list through the acquisition primitive. -/
def Population.updateHostCoefficients (ext : HVExt) (p : Population) : Population :=
  let p1 := { p with coefficients_hosts :=
    p.coefficients_hosts.map (fun _ => List.replicate Population.NUM_COEFFICIENTS 0) }
  p.hosts.foldl
    (fun q h =>
      let genomes := h.pathogens.map Prod.fst
      let hostsReset := pyUpdateFirst (fun x => x.oid == h.oid)
        (fun x => { x with pathogens := [], sum_fitness := 0 }) q.hosts
      let q1 := { q with hosts := hostsReset }
      genomes.foldl (fun r g => hostAcquirePathogen ext r h.oid g) q1)
    p1

/-- `Population.updateVectorCoefficients` (population.py lines 1068-1080). -/
def Population.updateVectorCoefficients (ext : HVExt) (p : Population) : Population :=
  let p1 := { p with coefficients_vectors :=
    p.coefficients_vectors.map (fun _ => List.replicate Population.NUM_COEFFICIENTS 0) }
  p.vectors.foldl
    (fun q v =>
      let genomes := v.pathogens.map Prod.fst
      let vectorsReset := pyUpdateFirst (fun x => x.oid == v.oid)
        (fun x => { x with pathogens := [], sum_fitness := 0 }) q.vectors
      let q1 := { q with vectors := vectorsReset }
      genomes.foldl (fun r g => vectorAcquirePathogen ext r v.oid g) q1)
    p1

/-- `Population.setSetup(setup)` (population.py lines 201-254): copies the
scalar parameters from the Setup record and recomputes both coefficient
matrices (the per-genome functions live in `HVExt`; the source interleaves
the two update calls with the field assignments, which is equivalent because
the updates read none of the scalar fields). -/
def Population.setSetup (ext : HVExt) (p : Population) (s : Setup) : Population :=
  let p1 := { p with
    num_loci := s.num_loci,
    possible_alleles := s.possible_alleles,
    contact_rate_host_vector := s.contact_rate_host_vector,
    contact_rate_host_host := s.contact_rate_host_host,
    mean_inoculum_host := s.mean_inoculum_host,
    mean_inoculum_vector := s.mean_inoculum_vector,
    recovery_rate_host := s.recovery_rate_host,
    recovery_rate_vector := s.recovery_rate_vector,
    recombine_in_host := s.recombine_in_host,
    recombine_in_vector := s.recombine_in_vector,
    num_crossover_host := s.num_crossover_host,
    num_crossover_vector := s.num_crossover_vector,
    mutate_in_host := s.mutate_in_host,
    mutate_in_vector := s.mutate_in_vector,
    death_rate_host := s.death_rate_host,
    death_rate_vector := s.death_rate_vector }
  Population.updateVectorCoefficients ext (Population.updateHostCoefficients ext p1)

/-- `Population.__init__(id, setup, num_hosts, num_vectors)` (population.py
lines 66-157, non-slim path): both coefficient matrices start with a dummy
zero row, each constructed Host/Vector appends its own row (so their indices
count the dummy), then the dummy row is deleted and every index is
decremented; the lists of infected/healthy individuals are initialized, the
setup is assigned, and the population registers itself as its own neighbor
with rate 0 in all four neighbor maps. -/
def populationInit (ext : HVExt) (pid : String) (s : Setup)
    (num_hosts num_vectors : ℕ) : Population :=
  let base : Population := {
    id := pid, next_oid := 0,
    coefficients_hosts := [List.replicate Population.NUM_COEFFICIENTS 0],
    coefficients_vectors := [List.replicate Population.NUM_COEFFICIENTS 0],
    hosts := [], vectors := [],
    infected_hosts := [], healthy_hosts := [], infected_vectors := [],
    dead_hosts := [], dead_vectors := [],
    neighbors_hosts := [], neighbors_vectors := [],
    total_migration_rate_hosts := 0, total_migration_rate_vectors := 0,
    neighbors_contact_hosts := [], neighbors_contact_vectors := [],
    total_population_contact_rate_host_host := 0,
    total_population_contact_rate_host_vector := 0,
    total_population_contact_rate_vector_host := 0,
    num_loci := 0, possible_alleles := [],
    contact_rate_host_vector := 0, contact_rate_host_host := 0,
    mean_inoculum_host := 0, mean_inoculum_vector := 0,
    recovery_rate_host := 0, recovery_rate_vector := 0,
    recombine_in_host := 0, recombine_in_vector := 0,
    num_crossover_host := 0, num_crossover_vector := 0,
    mutate_in_host := 0, mutate_in_vector := 0,
    death_rate_host := 0, death_rate_vector := 0 }
  let withHosts := (List.range num_hosts).foldl
    (fun (acc : Population × List Individual) i =>
      let (q, hs) := acc
      let (q1, h) := hostInit q (pid ++ "_" ++ toString i)
      (q1, hs ++ [h]))
    (base, [])
  let withVectors := (List.range num_vectors).foldl
    (fun (acc : Population × List Individual) i =>
      let (q, vs) := acc
      let (q1, v) := vectorInit q (pid ++ "_" ++ toString i)
      (q1, vs ++ [v]))
    (withHosts.1, [])
  let hosts := withHosts.2.map (fun h =>
    { h with coefficient_index := h.coefficient_index - 1 })
  let vectors := withVectors.2.map (fun v =>
    { v with coefficient_index := v.coefficient_index - 1 })
  let p1 := { withVectors.1 with
    coefficients_hosts := npDeleteRow withVectors.1.coefficients_hosts 0,
    coefficients_vectors := npDeleteRow withVectors.1.coefficients_vectors 0,
    hosts := hosts, vectors := vectors,
    infected_hosts := [], healthy_hosts := hosts.map (fun h => h.oid),
    infected_vectors := [], dead_hosts := [], dead_vectors := [] }
  let p2 := Population.setSetup ext p1 s
  (((p2.setHostMigrationNeighbor pid 0).setVectorMigrationNeighbor pid 0
    ).setHostPopulationContactNeighbor pid 0
    ).setVectorPopulationContactNeighbor pid 0

/-- Slimmed-down individual snapshot.  Modelled from the spec: the
intermediate copies keep "host/vector identities plus pathogen loads only"
(`Host.copyState` is not under `src/`). -/
structure SlimInd where
  id : String
  pathogens : List (String × ℕ)
deriving DecidableEq, Repr

/-- Slimmed-down population snapshot produced by `Population.copyState`
(population.py lines 159-199): only the id and the four individual lists
survive. -/
structure SlimPop where
  id : String
  hosts : List SlimInd
  dead_hosts : List SlimInd
  vectors : List SlimInd
  dead_vectors : List SlimInd
deriving DecidableEq, Repr

/-- `Individual.copyState`. Modelled from the spec (slim copies keep identity
and pathogen load). -/
def Individual.copyState (h : Individual) : SlimInd :=
  { id := h.id, pathogens := h.pathogens }

/-- `Population.copyState()` (population.py lines 159-199) along the
`host_sampling = 0, vector_sampling = 0` path used by the Gillespie driver
(every individual is copied; the positive-sampling branches draw random
subsets through the external RNG and are not exercised by the driver). -/
def Population.copyState (p : Population) : SlimPop :=
  { id := p.id,
    hosts := p.hosts.map Individual.copyState,
    dead_hosts := p.dead_hosts.map Individual.copyState,
    vectors := p.vectors.map Individual.copyState,
    dead_vectors := p.dead_vectors.map Individual.copyState }

/-- A population value with every field empty/zero, used as the (never
reached) default of model-dictionary lookups. -/
def emptyPopulation : Population := {
  id := "", next_oid := 0,
  coefficients_hosts := [], coefficients_vectors := [],
  hosts := [], vectors := [],
  infected_hosts := [], healthy_hosts := [], infected_vectors := [],
  dead_hosts := [], dead_vectors := [],
  neighbors_hosts := [], neighbors_vectors := [],
  total_migration_rate_hosts := 0, total_migration_rate_vectors := 0,
  neighbors_contact_hosts := [], neighbors_contact_vectors := [],
  total_population_contact_rate_host_host := 0,
  total_population_contact_rate_host_vector := 0,
  total_population_contact_rate_vector_host := 0,
  num_loci := 0, possible_alleles := [],
  contact_rate_host_vector := 0, contact_rate_host_host := 0,
  mean_inoculum_host := 0, mean_inoculum_vector := 0,
  recovery_rate_host := 0, recovery_rate_vector := 0,
  recombine_in_host := 0, recombine_in_vector := 0,
  num_crossover_host := 0, num_crossover_vector := 0,
  mutate_in_host := 0, mutate_in_vector := 0,
  death_rate_host := 0, death_rate_vector := 0 }

instance : Inhabited Population := ⟨emptyPopulation⟩

/-- The model state read and mutated by the Gillespie driver: the ordered
dictionary of populations keyed by id (class `Model` itself is external; the
driver only touches `model.populations` and `model.interventions`, the latter
carried separately because intervention payloads are opaque callables). -/
structure ModelG where
  populations : List (String × Population)
deriving DecidableEq

/-- `model.populations[id] = pop` (in-place object mutation in Python). -/
def ModelG.setPop (m : ModelG) (id : String) (p : Population) : ModelG :=
  ⟨assocSet m.populations id p⟩

/-- The 16 event-class identifiers of class `Gillespie` (gillespie.py lines
27-42), in the fixed `evt_IDs` order. -/
def Gillespie.MIGRATE_HOST : ℕ := 0
def Gillespie.MIGRATE_VECTOR : ℕ := 1
def Gillespie.POPULATION_CONTACT_HOST_HOST : ℕ := 2
def Gillespie.POPULATION_CONTACT_HOST_VECTOR : ℕ := 3
def Gillespie.POPULATION_CONTACT_VECTOR_HOST : ℕ := 4
def Gillespie.CONTACT_HOST_HOST : ℕ := 5
def Gillespie.CONTACT_HOST_VECTOR : ℕ := 6
def Gillespie.CONTACT_VECTOR_HOST : ℕ := 7
def Gillespie.RECOVER_HOST : ℕ := 8
def Gillespie.RECOVER_VECTOR : ℕ := 9
def Gillespie.MUTATE_HOST : ℕ := 10
def Gillespie.MUTATE_VECTOR : ℕ := 11
def Gillespie.RECOMBINE_HOST : ℕ := 12
def Gillespie.RECOMBINE_VECTOR : ℕ := 13
def Gillespie.KILL_HOST : ℕ := 14
def Gillespie.KILL_VECTOR : ℕ := 15

/-- Rate computation for one population inside `Gillespie.getRates`
(gillespie.py lines 91-270): first the three cached population-contact
aggregate rates are written into the population, then the sixteen
event-class rates are computed, in `evt_IDs` order, from the coefficient
columns and the scalar rate parameters. -/
def ratesForPop (m : ModelG) (ids : List String) (id : String) : Population × List ℚ :=
  let pop := assocGetD m.populations id emptyPopulation
  let tpc_hh := (ids.map (fun other_id =>
    assocGetD pop.neighbors_contact_hosts other_id 0 *
      (1 - colMean (assocGetD m.populations other_id emptyPopulation).coefficients_hosts
        Population.POPULATION_CONTACT))).sum
  let tpc_hv := (ids.map (fun other_id =>
    assocGetD pop.neighbors_contact_hosts other_id 0 *
      (1 - colMean (assocGetD m.populations other_id emptyPopulation).coefficients_vectors
        Population.POPULATION_CONTACT))).sum
  let tpc_vh := (ids.map (fun other_id =>
    assocGetD pop.neighbors_contact_vectors other_id 0 *
      (1 - colMean (assocGetD m.populations other_id emptyPopulation).coefficients_hosts
        Population.POPULATION_CONTACT))).sum
  let pop1 := { pop with
    total_population_contact_rate_host_host := tpc_hh,
    total_population_contact_rate_host_vector := tpc_hv,
    total_population_contact_rate_vector_host := tpc_vh }
  let col : List ℚ := [
    pop1.total_migration_rate_hosts *
      colSum pop1.coefficients_hosts Population.MIGRATION,
    pop1.total_migration_rate_vectors *
      colSum pop1.coefficients_vectors Population.MIGRATION,
    oneMinusTimesSum pop1.coefficients_hosts Population.POPULATION_CONTACT
      Population.INFECTED * tpc_hh,
    oneMinusTimesSum pop1.coefficients_hosts Population.POPULATION_CONTACT
      Population.INFECTED * tpc_hv,
    oneMinusTimesSum pop1.coefficients_vectors Population.POPULATION_CONTACT
      Population.INFECTED * tpc_vh,
    pop1.contact_rate_host_host *
      oneMinusTimesSum pop1.coefficients_hosts Population.CONTACT Population.INFECTED *
      (1 - colMean pop1.coefficients_hosts Population.CONTACT),
    pop1.contact_rate_host_vector *
      oneMinusTimesSum pop1.coefficients_hosts Population.CONTACT Population.INFECTED *
      (1 - colMean pop1.coefficients_vectors Population.CONTACT),
    pop1.contact_rate_host_vector *
      oneMinusTimesSum pop1.coefficients_vectors Population.CONTACT Population.INFECTED *
      (1 - colMean pop1.coefficients_hosts Population.CONTACT),
    pop1.recovery_rate_host * colSum pop1.coefficients_hosts Population.RECOVERY,
    pop1.recovery_rate_vector * colSum pop1.coefficients_vectors Population.RECOVERY,
    pop1.mutate_in_host * colSum pop1.coefficients_hosts Population.MUTATION,
    pop1.mutate_in_vector * colSum pop1.coefficients_vectors Population.MUTATION,
    pop1.recombine_in_host * colSum pop1.coefficients_hosts Population.RECOMBINATION,
    pop1.recombine_in_vector * colSum pop1.coefficients_vectors Population.RECOMBINATION,
    pop1.death_rate_host * colSum pop1.coefficients_hosts Population.LETHALITY,
    pop1.death_rate_vector * colSum pop1.coefficients_vectors Population.LETHALITY ]
  (pop1, col)

/-- `Gillespie.getRates(population_ids)` (gillespie.py lines 70-272): writes
the cached population-contact totals into each population (getRates mutates
the model) and returns the 16 × P rate matrix, event classes as rows and
populations as columns in dictionary order. -/
def getRatesM (m : ModelG) : ModelG × List (List ℚ) :=
  let ids := m.populations.map Prod.fst
  let res := ids.foldl
    (fun (acc : ModelG × List (List ℚ)) id =>
      let (m1, cols) := acc
      let (pop1, col) := ratesForPop m1 ids id
      (ModelG.setPop m1 id pop1, cols ++ [col]))
    (m, [])
  (res.1, (List.range 16).map (fun e => res.2.map (fun col => col.getD e 0)))

/-- Total of the rate matrix, `np.sum(r)`. -/
def matTotal (r : List (List ℚ)) : ℚ := (r.map List.sum).sum

/-- The row-major selection scan of `Gillespie.run` (gillespie.py lines
494-526): event classes in the outer loop, populations in the inner loop, a
single running cumulative sum across both, first cell whose cumulative sum
exceeds `u` wins.  The inner per-row scan is the same cumulative scan as
`getWeightedRandom` and reuses `gwrAux`. -/
def selAux (u : ℚ) : ℚ → ℕ → List (List ℚ) → Option (ℕ × ℕ × ℚ)
  | _, _, [] => none
  | acc, e, row :: rest =>
    match gwrAux u acc 0 row with
    | some pr => some (e, pr.1, pr.2)
    | none => selAux u (acc + row.sum) (e + 1) rest

/-- Selection of the (event class, population) cell and the renormalized
residual `(u - r_cum + r[e,p]) / r[e,p]` forwarded to `doAction`
(gillespie.py lines 492-517).  `none` models the for-loops completing without
a break (no cell's cumulative rate exceeds `u`), in which case no event
fires. -/
def selectEvent (u : ℚ) (r : List (List ℚ)) : Option (ℕ × ℕ × ℚ) :=
  selAux u 0 0 r

/-- The neighbor scan shared by the MIGRATE_HOST / MIGRATE_VECTOR branches of
`doAction` (gillespie.py lines 289-311): cumulative sum over the neighbor
dictionary in insertion order; the first neighbor whose cumulative rate
exceeds the scaled draw receives the migrant, with residual
`(rand - r_cum + w) / w`. -/
def migrateScanAux (rand : ℚ) : ℚ → List (String × ℚ) → Option (String × ℚ)
  | _, [] => none
  | acc, (nid, w) :: rest =>
    let c := acc + w
    if c > rand then some (nid, (rand - c + w) / w) else migrateScanAux rand c rest

/-- Entry point of the neighbor scan (running sum starts at 0). -/
def migrateScan (neighbors : List (String × ℚ)) (rand : ℚ) : Option (String × ℚ) :=
  migrateScanAux rand 0 neighbors

/-- Whether the POPULATION_CONTACT neighbor scan of `doAction` (gillespie.py
lines 313-362) selects some neighbor: running sum of
`neighbor_rate × mean(neighbor population-contact column)` exceeding the
scaled draw. -/
def pcTrigger (terms : List ℚ) (rand : ℚ) : Bool :=
  (terms.foldl (fun (st : ℚ × Bool) t =>
    let c := st.1 + t
    (c, st.2 || decide (c > rand))) (0, false)).2

/-- `Gillespie.doAction(act, pop, rand)` (gillespie.py lines 274-405).
Branches 8-15 (RECOVER_* through KILL_*) set `changed = True` unconditionally
after invoking the population action; branches 5-7 (within-population
contacts) propagate the action's own changed flag; branches 0-1 scan the
migration neighbors; branches 2-4 (population contacts) evaluate the unbound
name `target_pop` when a neighbor is selected (gillespie.py lines 323, 340,
357) and therefore raise `NameError` instead of performing the contact,
returning `changed = False` only when no neighbor triggers.  An unmatched
`act` falls through with `changed = False`. -/
def doAction (ext : HVExt) (oracle : ℕ → ℕ → ℕ) (m : ModelG) (act : ℕ) (popId : String)
    (rand : ℚ) : Except String (ModelG × Bool) :=
  let pop := assocGetD m.populations popId emptyPopulation
  if act == Gillespie.MIGRATE_HOST then
    let rand1 := rand * pop.total_migration_rate_hosts
    match migrateScan pop.neighbors_hosts rand1 with
    | none => .ok (m, false)
    | some nr =>
      let target := assocGetD m.populations nr.1 emptyPopulation
      (Population.migrate ext oracle pop target 1 0 (some nr.2)).map
        (fun ot => (ModelG.setPop (ModelG.setPop m popId ot.1) nr.1 ot.2, true))
  else if act == Gillespie.MIGRATE_VECTOR then
    let rand1 := rand * pop.total_migration_rate_vectors
    match migrateScan pop.neighbors_vectors rand1 with
    | none => .ok (m, false)
    | some nr =>
      let target := assocGetD m.populations nr.1 emptyPopulation
      (Population.migrate ext oracle pop target 0 1 (some nr.2)).map
        (fun ot => (ModelG.setPop (ModelG.setPop m popId ot.1) nr.1 ot.2, true))
  else if act == Gillespie.POPULATION_CONTACT_HOST_HOST then
    let rand1 := rand * pop.total_population_contact_rate_host_host
    let terms := pop.neighbors_contact_hosts.map (fun kv =>
      kv.2 * colMean (assocGetD m.populations kv.1 emptyPopulation).coefficients_hosts
        Population.POPULATION_CONTACT)
    if pcTrigger terms rand1 then .error "NameError: name target_pop is not defined"
    else .ok (m, false)
  else if act == Gillespie.POPULATION_CONTACT_HOST_VECTOR then
    let rand1 := rand * pop.total_population_contact_rate_host_vector
    let terms := pop.neighbors_contact_hosts.map (fun kv =>
      kv.2 * colMean (assocGetD m.populations kv.1 emptyPopulation).coefficients_vectors
        Population.POPULATION_CONTACT)
    if pcTrigger terms rand1 then .error "NameError: name target_pop is not defined"
    else .ok (m, false)
  else if act == Gillespie.POPULATION_CONTACT_VECTOR_HOST then
    let rand1 := rand * pop.total_population_contact_rate_vector_host
    let terms := pop.neighbors_contact_vectors.map (fun kv =>
      kv.2 * colMean (assocGetD m.populations kv.1 emptyPopulation).coefficients_hosts
        Population.POPULATION_CONTACT)
    if pcTrigger terms rand1 then .error "NameError: name target_pop is not defined"
    else .ok (m, false)
  else if act == Gillespie.CONTACT_HOST_HOST then
    (Population.contactHostHost ext pop rand).map
      (fun pc => (ModelG.setPop m popId pc.1, pc.2))
  else if act == Gillespie.CONTACT_HOST_VECTOR then
    (Population.contactHostVector ext pop rand).map
      (fun pc => (ModelG.setPop m popId pc.1, pc.2))
  else if act == Gillespie.CONTACT_VECTOR_HOST then
    (Population.contactVectorHost ext pop rand).map
      (fun pc => (ModelG.setPop m popId pc.1, pc.2))
  else if act == Gillespie.RECOVER_HOST then
    (Population.recoverHost pop rand).map (fun q => (ModelG.setPop m popId q, true))
  else if act == Gillespie.RECOVER_VECTOR then
    (Population.recoverVector pop rand).map (fun q => (ModelG.setPop m popId q, true))
  else if act == Gillespie.MUTATE_HOST then
    (Population.mutateHost ext pop rand).map (fun q => (ModelG.setPop m popId q, true))
  else if act == Gillespie.MUTATE_VECTOR then
    (Population.mutateVector ext pop rand).map (fun q => (ModelG.setPop m popId q, true))
  else if act == Gillespie.RECOMBINE_HOST then
    (Population.recombineHost ext pop rand).map (fun q => (ModelG.setPop m popId q, true))
  else if act == Gillespie.RECOMBINE_VECTOR then
    (Population.recombineVector ext pop rand).map (fun q => (ModelG.setPop m popId q, true))
  else if act == Gillespie.KILL_HOST then
    (Population.killHost pop rand).map (fun q => (ModelG.setPop m popId q, true))
  else if act == Gillespie.KILL_VECTOR then
    (Population.killVector pop rand).map (fun q => (ModelG.setPop m popId q, true))
  else .ok (m, false)

/-- A scheduled intervention (external per spec §6: a `time` plus an opaque
`doIntervention()` payload with arbitrary side effects on the model). -/
structure GIv where
  time : ℚ
  effect : ModelG → ModelG

instance : Inhabited GIv := ⟨⟨0, id⟩⟩

/-- Insertion into a time-sorted intervention list (helper of `sortIvs`). -/
def insertIv (iv : GIv) : List GIv → List GIv
  | [] => [iv]
  | x :: xs => if iv.time ≤ x.time then iv :: x :: xs else x :: insertIv iv xs

/-- `sorted(self.model.interventions, key=lambda i: i.time)` (gillespie.py
lines 437-439); Python's sort is stable and this insertion sort is too. -/
def sortIvs : List GIv → List GIv
  | [] => []
  | x :: xs => insertIv x (sortIvs xs)

/-- A recorded snapshot: `cp.deepcopy(self.model)` keeps the full model
state, `self.model.copyState()` keeps the slimmed host/vector lists. -/
inductive Snapshot where
  | full (m : ModelG)
  | slim (pops : List SlimPop)
deriving DecidableEq

/-- `history[t] = v` on the Python dict: replaces the value at an existing
key, otherwise appends in insertion order. -/
def histInsert (h : List (ℚ × Snapshot)) (t : ℚ) (v : Snapshot) : List (ℚ × Snapshot) :=
  if h.any (fun kv => kv.1 == t) then
    h.map (fun kv => if kv.1 == t then (t, v) else kv)
  else h ++ [(t, v)]

/-- `history[t]` lookup (`none` = key absent). -/
def histLookup (h : List (ℚ × Snapshot)) (t : ℚ) : Option Snapshot :=
  (h.find? (fun kv => kv.1 == t)).map Prod.snd

/-- Modelled from the spec: `Model.copyState()` (class Model is external)
snapshots every population through `Population.copyState`. -/
def ModelG.copyState (m : ModelG) : List SlimPop :=
  m.populations.map (fun kv => Population.copyState kv.2)

/-- Mutable state threaded through the `Gillespie.run` while-loop
(gillespie.py lines 432-447): the model, the clock `t_var`, the intervention
tracker, the print and sampling counters, the RNG stream position `k`
(embedding artifact: each `np.random` call consumes the next position), and
the history dictionary. -/
structure RState where
  model : ModelG
  t_var : ℚ
  tracker : ℕ
  print_counter : ℕ
  sampling_counter : ℕ
  k : ℕ
  hist : List (ℚ × Snapshot)
deriving DecidableEq

/-- The intervention-resolution inner while-loop of the positive-rate branch
(gillespie.py lines 459-481): while interventions remain and either the
tentative time has passed the next one or the total rate is zero, apply the
intervention, set the clock to its scheduled time, reset the sampling
counter, record a slim snapshot, and recompute the rate matrix.  Returns
(model, t_var, tracker, sampling_counter, history, rate matrix, total).
`fuel` is `ivs.length - tracker`, enough for the tracker to exhaust the
list. -/
def intervLoop (ivs : List GIv) :
    ℕ → ModelG → ℚ → ℕ → ℕ → List (ℚ × Snapshot) → List (List ℚ) → ℚ →
    ModelG × ℚ × ℕ × ℕ × List (ℚ × Snapshot) × List (List ℚ) × ℚ
  | 0, m, t, tr, sc, h, r, rt => (m, t, tr, sc, h, r, rt)
  | fuel + 1, m, t, tr, sc, h, r, rt =>
    if tr < ivs.length ∧ ((ivs.getD tr default).time ≤ t ∨ rt = 0) then
      let iv := ivs.getD tr default
      let m1 := iv.effect m
      let t1 := iv.time
      let h1 := histInsert h t1 (.slim (ModelG.copyState m1))
      let rm := getRatesM m1
      intervLoop ivs fuel rm.1 t1 (tr + 1) 0 h1 rm.2 (matTotal rm.2)
    else (m, t, tr, sc, h, r, rt)

/-- The intervention while-loop of the zero-rate branch (gillespie.py lines
535-545): fires only interventions whose scheduled time is at or before the
current clock; no snapshot is recorded and no rates are recomputed here. -/
def zeroIntervLoop (ivs : List GIv) : ℕ → ModelG → ℚ → ℕ → ModelG × ℚ × ℕ
  | 0, m, t, tr => (m, t, tr)
  | fuel + 1, m, t, tr =>
    if tr < ivs.length ∧ (ivs.getD tr default).time ≤ t then
      let iv := ivs.getD tr default
      zeroIntervLoop ivs fuel (iv.effect m) iv.time (tr + 1)
    else (m, t, tr)

/-- One iteration of the `while t_var < tf` loop of `Gillespie.run`
(gillespie.py lines 444-547).  `dts` supplies the exponential waiting-time
draws, `us` the uniform draws (`np.random.random()`), `choices` the integer
draws consumed inside actions, each indexed by the RNG position `k`;
`time_sampling` and `pe` (`print_every_n_events`) are the run parameters.
On the positive-total path: advance the clock by the drawn waiting time,
resolve due interventions (re-drawing a waiting time from the recomputed
total, or jumping to `tf` when it is zero), and, while still before `tf`,
select a cell of the rate matrix by the row-major cumulative scan and
dispatch `doAction` with the renormalized residual, recording a slim
snapshot according to the sampling stride when the action reports a change.
On the zero-total path: fire due interventions, or jump to `tf` when none
remain. -/
def runIter (tf : ℚ) (time_sampling : ℤ) (pe : ℕ) (ivs : List GIv) (dts us : ℕ → ℚ)
    (choices : ℕ → ℕ → ℕ → ℕ) (ext : HVExt) (s : RState) : Except String RState :=
  let rm := getRatesM s.model
  let m1 := rm.1
  let r := rm.2
  let r_tot := matTotal r
  if 0 < r_tot then
    let t1 := s.t_var + dts s.k
    let k1 := s.k + 1
    let afterIv :=
      if s.tracker < ivs.length ∧ (ivs.getD s.tracker default).time ≤ t1 then
        let il := intervLoop ivs (ivs.length - s.tracker) m1 t1 s.tracker
          s.sampling_counter s.hist r r_tot
        let (m2, t2, tr2, sc2, h2, r2, rt2) := il
        if 0 < rt2 then (m2, t2 + dts k1, tr2, sc2, h2, r2, rt2, k1 + 1)
        else (m2, tf, tr2, sc2, h2, r2, rt2, k1)
      else (m1, t1, s.tracker, s.sampling_counter, s.hist, r, r_tot, k1)
    let (m3, t3, tr3, sc3, h3, r3, rt3, k3) := afterIv
    if t3 < tf then
      let u := us k3 * rt3
      let k4 := k3 + 1
      match selectEvent u r3 with
      | none =>
        .ok { model := m3, t_var := t3, tracker := tr3,
              print_counter := s.print_counter, sampling_counter := sc3,
              k := k4, hist := h3 }
      | some epr =>
        let (e, p, res) := epr
        let ids := m3.populations.map Prod.fst
        let pc1 := s.print_counter + 1
        let pc2 := if pc1 == pe then 0 else pc1
        (doAction ext (choices k4) m3 e (ids.getD p "") res).map (fun mc =>
          let (m4, changed) := mc
          if changed ∧ 0 ≤ time_sampling then
            let sc4 := sc3 + 1
            if time_sampling < (sc4 : ℤ) then
              { model := m4, t_var := t3, tracker := tr3, print_counter := pc2,
                sampling_counter := 0, k := k4,
                hist := histInsert h3 t3 (.slim (ModelG.copyState m4)) }
            else
              { model := m4, t_var := t3, tracker := tr3, print_counter := pc2,
                sampling_counter := sc4, k := k4, hist := h3 }
          else
            { model := m4, t_var := t3, tracker := tr3, print_counter := pc2,
              sampling_counter := sc3, k := k4, hist := h3 })
    else
      .ok { model := m3, t_var := t3, tracker := tr3,
            print_counter := s.print_counter, sampling_counter := sc3,
            k := k3, hist := h3 }
  else
    if s.tracker < ivs.length then
      let zl := zeroIntervLoop ivs (ivs.length - s.tracker) m1 s.t_var s.tracker
      .ok { s with model := zl.1, t_var := zl.2.1, tracker := zl.2.2 }
    else
      .ok { s with model := m1, t_var := tf }

/-- The `while t_var < tf` loop of `Gillespie.run`, with explicit fuel:
`ok none` means the fuel ran out with the guard still true (the Python loop
is still running), `ok (some s)` that the guard became false. -/
def runLoop (tf : ℚ) (time_sampling : ℤ) (pe : ℕ) (ivs : List GIv) (dts us : ℕ → ℚ)
    (choices : ℕ → ℕ → ℕ → ℕ) (ext : HVExt) : ℕ → RState → Except String (Option RState)
  | 0, s => if s.t_var < tf then .ok none else .ok (some s)
  | fuel + 1, s =>
    if s.t_var < tf then
      (runIter tf time_sampling pe ivs dts us choices ext s).bind
        (runLoop tf time_sampling pe ivs dts us choices ext fuel)
    else .ok (some s)

/-- `Gillespie.run(t0, tf, time_sampling, ...)` (gillespie.py lines 407-553):
the history starts as `{ 0: cp.deepcopy(self.model) }` — keyed at the
literal constant 0, not at `t0` —, the interventions are sorted by time, the
loop runs until the clock reaches `tf`, and a final full deep copy is stored
at key `tf`.  Returns the history, or `none` when the supplied fuel is
insufficient (the Python loop has not terminated yet). -/
def Gillespie.run (fuel : ℕ) (t0 tf : ℚ) (time_sampling : ℤ) (pe : ℕ) (ivs : List GIv)
    (dts us : ℕ → ℚ) (choices : ℕ → ℕ → ℕ → ℕ) (ext : HVExt) (m0 : ModelG) :
    Except String (Option (List (ℚ × Snapshot))) :=
  let ivs1 := sortIvs ivs
  let s0 : RState := { model := m0, t_var := t0, tracker := 0, print_counter := 0,
                       sampling_counter := 0, k := 0, hist := [(0, .full m0)] }
  (runLoop tf time_sampling pe ivs1 dts us choices ext fuel s0).map
    (Option.map (fun s => histInsert s.hist tf (.full s.model)))

instance : Inhabited Individual :=
  ⟨{ oid := 0, id := "", pathogens := [], sum_fitness := 0, coefficient_index := 0,
     protection_sequences := [] }⟩

/-- A concrete instance of the external Host/Vector contract used by the
closed test fixtures: unit fitness and an all-ones coefficient row, identity
mutation/recombination, infection as a no-op reporting no change. -/
def ext0 : HVExt :=
  { fitnessHost := fun _ => 1,
    fitnessVector := fun _ => 1,
    rowOfHost := fun _ => List.replicate Population.NUM_COEFFICIENTS 1,
    rowOfVector := fun _ => List.replicate Population.NUM_COEFFICIENTS 1,
    infectIndividual := fun _ tgt => (tgt, false),
    mutateIndividual := fun _ h => h,
    recombineIndividual := fun _ h => h }

/-- Constant integer-draw oracle used by the closed fixtures. -/
def ch0 : ℕ → ℕ → ℕ := fun _ _ => 0

/-- Constant per-iteration integer-draw oracle for the run loop fixtures. -/
def ch3 : ℕ → ℕ → ℕ → ℕ := fun _ _ _ => 0

/-- Unit waiting-time draws for the run loop fixtures. -/
def dts0 : ℕ → ℚ := fun _ => 1

/-- Zero uniform draws for the run loop fixtures. -/
def us0 : ℕ → ℚ := fun _ => 0

/-- A minimal Setup: one locus with alphabet {A, B}; all rate parameters 0. -/
def setup0 : Setup :=
  { num_loci := 1, possible_alleles := [[Char.ofNat 65, Char.ofNat 66]],
    contact_rate_host_vector := 0, contact_rate_host_host := 0,
    mean_inoculum_host := 0, mean_inoculum_vector := 0,
    recovery_rate_host := 0, recovery_rate_vector := 0,
    recombine_in_host := 0, recombine_in_vector := 0,
    num_crossover_host := 0, num_crossover_vector := 0,
    mutate_in_host := 0, mutate_in_vector := 0,
    death_rate_host := 0, death_rate_vector := 0 }

/-- A population with one healthy host and one healthy vector. -/
def C1pop : Population := populationInit ext0 "a" setup0 1 1

/-- The single live vector of `C1pop`. -/
def C1vec : Individual := C1pop.vectors.getD 0 default

/-- Origin population for the migration counterexample: one host that has
acquired genome "A" twice (multiplicity 2), built through the public
`addPathogensToHosts` API. -/
def C6origin : Population :=
  (Population.addPathogensToHosts ext0 ch0
    (Population.addPathogensToHosts ext0 ch0
      (populationInit ext0 "o" setup0 1 0) [("A", 1)] []).1
    [("A", 1)] []).1

/-- Target population for the migration counterexample (initially empty). -/
def C6target : Population := populationInit ext0 "t" setup0 0 0

/-- Result of migrating the single host of `C6origin` (one host, supplied
draw 1/2). -/
def C6result : Except String (Population × Population) :=
  Population.migrate ext0 ch0 C6origin C6target 1 0 (some (1/2))

/-- Population for the validation counterexample: one healthy host, one
locus. -/
def C7pop : Population := populationInit ext0 "c" setup0 1 0

/-- The `addPathogensToHosts` call of the validation counterexample: the
first genome "A" is valid, the second "BB" has the wrong length. -/
def C7result : Population × Option String :=
  Population.addPathogensToHosts ext0 ch0 C7pop [("A", 1), ("BB", 1)] []

/-- Population with one infected host and one infected vector whose
coefficient rows are all ones (so every selection column sums to 1), built
through the public API. -/
def C8pop : Population :=
  (Population.addPathogensToVectors ext0 ch0
    (Population.addPathogensToHosts ext0 ch0
      (populationInit ext0 "k" setup0 1 1) [("A", 1)] []).1
    [("A", 1)] []).1

/-- Model holding `C8pop` only, for `doAction` fixtures. -/
def C10model : ModelG := ⟨[("k", C8pop)]⟩

/-- Model for the POPULATION_CONTACT counterexample: population "a" has a
host-population-contact neighbor entry pointing at "k" with rate 1, and
population "k"'s host POPULATION_CONTACT column has mean 1. -/
def C10pcModel : ModelG :=
  ⟨[("a", Population.setHostPopulationContactNeighbor
      (populationInit ext0 "a" setup0 1 1) "k" 1),
    ("k", C8pop)]⟩

/-- An all-zero-rate model: one population with one healthy host and one
healthy vector; every coefficient row is zero and every scalar rate is 0, so
the rate matrix is identically zero and `getRatesM` is the identity on it. -/
def C5model : ModelG := ⟨[("a", C1pop)]⟩

/-- Run-loop state stuck at time 0 in the zero-rate model, with an
intervention scheduled at the strictly later time 5. -/
def C5state : RState :=
  { model := C5model, t_var := 0, tracker := 0, print_counter := 0,
    sampling_counter := 0, k := 0, hist := [(0, .full C5model)] }

/-- The single future intervention of the stall counterexample (its payload
is the identity; it is never invoked). -/
def C5ivs : List GIv := [⟨5, id⟩]

/-- State for the zero-rate termination witness: same model, no
interventions, horizon 1. -/
def C4state : RState :=
  { model := C5model, t_var := 0, tracker := 0, print_counter := 0,
    sampling_counter := 0, k := 0, hist := [(0, .full C5model)] }

/-- The run of the history counterexample: `t0 = 1`, `tf = 2`, all rates
zero, no interventions — it terminates in one iteration. -/
def C9result : Except String (Option (List (ℚ × Snapshot))) :=
  Gillespie.run 1 1 2 0 1000 [] dts0 us0 ch3 ext0 C5model

/-- The row-index invariant of spec §8: each coefficient matrix has exactly
one row per live individual of its kind, and every live individual's
`coefficient_index` equals its position in its live list. -/
def rowIndexInvariant (p : Population) : Bool :=
  p.coefficients_hosts.length == p.hosts.length &&
  p.coefficients_vectors.length == p.vectors.length &&
  p.hosts.enum.all (fun ih => ih.2.coefficient_index == ih.1) &&
  p.vectors.enum.all (fun iv => iv.2.coefficient_index == iv.1)

/-- Row-major cumulative sum of the rate matrix strictly before cell
(e, p): all full rows before row `e` plus the first `p` entries of row `e`. -/
def cellPrefix (r : List (List ℚ)) (e p : ℕ) : ℚ :=
  ((r.take e).map List.sum).sum + ((r.getD e []).take p).sum

/-- Value of the rate-matrix cell `r[e, p]`. -/
def cellVal (r : List (List ℚ)) (e p : ℕ) : ℚ :=
  (r.getD e []).getD p 0

deriving instance DecidableEq for Except

theorem gwrAux_ok (u : ℚ) (l : List ℚ) : ∀ (acc : ℚ) (i j : ℕ) (res : ℚ),
    acc ≤ u → gwrAux u acc i l = some (j, res) →
    ∃ j0, j = i + j0 ∧ j0 < l.length ∧
      acc + (l.take j0).sum ≤ u ∧ u < acc + (l.take (j0 + 1)).sum ∧
      0 < l.getD j0 0 ∧
      res = (u - (acc + (l.take j0).sum)) / l.getD j0 0 ∧
      0 ≤ res ∧ res < 1 ∧
      ∀ k, k < j0 → acc + (l.take (k + 1)).sum ≤ u := by
  induction l with
  | nil => intro acc i j res _ h; simp [gwrAux] at h
  | cons e rest ih =>
    intro acc i j res hacc h
    by_cases hu : u < acc + e
    · simp only [gwrAux, if_pos hu] at h
      obtain ⟨hj, hres⟩ := Prod.mk.injEq .. ▸ Option.some.injEq .. ▸ h
      have he : 0 < e := by linarith
      refine ⟨0, by omega, by simp, by simpa using hacc, by simpa using hu, by simpa using he,
        ?_, ?_, ?_, by omega⟩
      · rw [← hres]; simp; ring_nf
      · rw [← hres]
        have : u - (acc + e) + e = u - acc := by ring
        rw [this]
        exact div_nonneg (by linarith) he.le
      · rw [← hres]
        have : u - (acc + e) + e = u - acc := by ring
        rw [this]
        exact (div_lt_one he).mpr (by linarith)
    · have h' : gwrAux u (acc + e) (i + 1) rest = some (j, res) := by
        simpa [gwrAux, if_neg hu] using h
      have hacc' : acc + e ≤ u := le_of_not_lt hu
      obtain ⟨j0, hj, hlen, hpre, hthr, hpos, hres, h0r, h1r, hfirst⟩ :=
        ih (acc + e) (i + 1) j res hacc' h'
      refine ⟨j0 + 1, by omega, by simpa using Nat.succ_lt_succ hlen, ?_, ?_,
        by simpa using hpos, ?_, h0r, h1r, ?_⟩
      · simpa [add_assoc] using hpre
      · simpa [add_assoc] using hthr
      · rw [hres]; simp [add_assoc]
      · intro k hk
        match k with
        | 0 => simpa using hacc'
        | k + 1 =>
          have := hfirst k (by omega)
          simpa [add_assoc] using this

theorem gwrAux_exists (u : ℚ) (l : List ℚ) : ∀ (acc : ℚ) (i : ℕ),
    acc ≤ u → u < acc + l.sum → (gwrAux u acc i l).isSome := by
  induction l with
  | nil => intro acc i hacc hsum; simp at hsum; linarith
  | cons e rest ih =>
    intro acc i hacc hsum
    by_cases hu : u < acc + e
    · simp [gwrAux, if_pos hu]
    · have : gwrAux u acc i (e :: rest) = gwrAux u (acc + e) (i + 1) rest := by
        simp [gwrAux, if_neg hu]
      rw [this]
      exact ih (acc + e) (i + 1) (le_of_not_lt hu) (by simp at hsum; linarith)

theorem gwrAux_none (u : ℚ) (l : List ℚ) : ∀ (acc : ℚ) (i : ℕ),
    acc ≤ u → gwrAux u acc i l = none →
    ∀ k, k ≤ l.length → acc + (l.take k).sum ≤ u := by
  induction l with
  | nil => intro acc i hacc _ k _; simpa using hacc
  | cons e rest ih =>
    intro acc i hacc h k hk
    by_cases hu : u < acc + e
    · simp [gwrAux, if_pos hu] at h
    · have h' : gwrAux u (acc + e) (i + 1) rest = none := by
        simpa [gwrAux, if_neg hu] using h
      match k with
      | 0 => simpa using hacc
      | k + 1 =>
        have := ih (acc + e) (i + 1) (le_of_not_lt hu) h' k (by simpa using hk)
        simpa [add_assoc] using this

/-- C2. Weighted-random composability: for any weight vector with positive
total `S` and any draw in [0, 1), `getWeightedRandom` returns an index `i`
with `cumulative before i ≤ draw·S < cumulative through i`, and the residual
`(draw·S − cumulative before i) / r[i]` lies in [0, 1). -/
theorem C2_getWeightedRandom_composability (rand : ℚ) (r : List ℚ)
    (h0 : 0 ≤ rand) (h1 : rand < 1) (hS : 0 < r.sum) :
    ∃ i res, getWeightedRandom rand r = some (i, res) ∧ i < r.length ∧
      (r.take i).sum ≤ rand * r.sum ∧ rand * r.sum < (r.take (i + 1)).sum ∧
      res = (rand * r.sum - (r.take i).sum) / r.getD i 0 ∧
      0 ≤ res ∧ res < 1 := by
  have hu0 : 0 ≤ rand * r.sum := mul_nonneg h0 hS.le
  have hu1 : rand * r.sum < r.sum := by
    calc rand * r.sum < 1 * r.sum := by
          exact mul_lt_mul_of_pos_right h1 hS
      _ = r.sum := one_mul _
  have hex := gwrAux_exists (rand * r.sum) r 0 0 hu0 (by simpa using hu1)
  obtain ⟨⟨i, res⟩, hser⟩ := Option.isSome_iff_exists.mp hex
  obtain ⟨j0, hj, hlen, hpre, hthr, _, hres, h0r, h1r, _⟩ :=
    gwrAux_ok (rand * r.sum) r 0 0 i res hu0 hser
  refine ⟨i, res, ?_, ?_, ?_, ?_, ?_, h0r, h1r⟩
  · simpa [getWeightedRandom] using hser
  · omega
  · have : i = j0 := by omega
    rw [this]; linarith
  · have : i = j0 := by omega
    rw [this]; linarith
  · have : i = j0 := by omega
    rw [this, hres]; ring_nf

/-- Witness for C2 at `rand = 1/2`, `r = [1, 3]` (so `draw·S = 2`, the
selected index is 1 and the residual is 1/3). -/
theorem C2_witness :
    (0 ≤ (1/2 : ℚ) ∧ (1/2 : ℚ) < 1 ∧ 0 < ([1, 3] : List ℚ).sum) ∧
    (∃ i res, getWeightedRandom (1/2) ([1, 3] : List ℚ) = some (i, res) ∧
      i < ([1, 3] : List ℚ).length ∧
      (([1, 3] : List ℚ).take i).sum ≤ (1/2 : ℚ) * ([1, 3] : List ℚ).sum ∧
      (1/2 : ℚ) * ([1, 3] : List ℚ).sum < (([1, 3] : List ℚ).take (i + 1)).sum ∧
      res = ((1/2 : ℚ) * ([1, 3] : List ℚ).sum - (([1, 3] : List ℚ).take i).sum) /
        ([1, 3] : List ℚ).getD i 0 ∧
      0 ≤ res ∧ res < 1) :=
  ⟨by norm_num,
   C2_getWeightedRandom_composability (1/2) [1, 3] (by norm_num) (by norm_num) (by norm_num)⟩

theorem selAux_spec (u : ℚ) (rows : List (List ℚ)) : ∀ (acc : ℚ) (e : ℕ),
    acc ≤ u → u < acc + (rows.map List.sum).sum →
    ∃ a p res, selAux u acc e rows = some (e + a, p, res) ∧
      a < rows.length ∧ p < (rows.getD a []).length ∧
      acc + ((rows.take a).map List.sum).sum + ((rows.getD a []).take p).sum ≤ u ∧
      u < acc + ((rows.take a).map List.sum).sum + ((rows.getD a []).take (p + 1)).sum ∧
      0 < (rows.getD a []).getD p 0 ∧
      res = (u - (acc + ((rows.take a).map List.sum).sum + ((rows.getD a []).take p).sum)) /
        (rows.getD a []).getD p 0 ∧
      0 ≤ res ∧ res < 1 ∧
      (∀ p2, p2 < p →
        acc + ((rows.take a).map List.sum).sum + ((rows.getD a []).take (p2 + 1)).sum ≤ u) ∧
      (∀ a2, a2 < a → ∀ p2, p2 < (rows.getD a2 []).length →
        acc + ((rows.take a2).map List.sum).sum + ((rows.getD a2 []).take (p2 + 1)).sum ≤ u) := by
  induction rows with
  | nil => intro acc e hacc hsum; simp at hsum; linarith
  | cons row rest ih =>
    intro acc e hacc hsum
    cases hrow : gwrAux u acc 0 row with
    | some pr =>
      obtain ⟨p, res⟩ := pr
      obtain ⟨j0, hj, hlen, hpre, hthr, hpos, hres, h0r, h1r, hfirst⟩ :=
        gwrAux_ok u row acc 0 p res hacc hrow
      have hp : p = j0 := by omega
      subst hp
      refine ⟨0, p, res, ?_, by simpa using Nat.zero_lt_succ _, by simpa using hlen,
        by simpa using hpre, by simpa using hthr, by simpa using hpos,
        by simpa using hres, h0r, h1r, ?_, by omega⟩
      · simp [selAux, hrow]
      · intro p2 hp2
        simpa using hfirst p2 hp2
    | none =>
      have hbound := gwrAux_none u row acc 0 hacc hrow
      have hrowsum : acc + row.sum ≤ u := by
        simpa using hbound row.length (le_refl _)
      have hsum' : u < (acc + row.sum) + (rest.map List.sum).sum := by
        simp at hsum; linarith
      obtain ⟨a, p, res, hsel, halen, hplen, hpre, hthr, hpos, hres, h0r, h1r, hfp, hfa⟩ :=
        ih (acc + row.sum) (e + 1) hrowsum hsum'
      refine ⟨a + 1, p, res, ?_, by simpa using Nat.succ_lt_succ halen, by simpa using hplen,
        ?_, ?_, by simpa using hpos, ?_, h0r, h1r, ?_, ?_⟩
      · have : e + (a + 1) = e + 1 + a := by omega
        rw [this, selAux, hrow]
        exact hsel
      · simpa [add_assoc] using hpre
      · simpa [add_assoc] using hthr
      · rw [hres]; simp [add_assoc]
      · intro p2 hp2
        simpa [add_assoc] using hfp p2 hp2
      · intro a2 ha2 p2 hp2
        match a2 with
        | 0 =>
          simp only [List.getD_cons_zero] at hp2 ⊢
          simpa using hbound (p2 + 1) (by omega)
        | a2 + 1 =>
          have := hfa a2 (by omega) p2 (by simpa using hp2)
          simpa [add_assoc] using this

/-- C3. In an iteration with positive total rate and the tentative time still
below the horizon, the driver scans the rate matrix in row-major order (event
class outer, population inner) with a single running sum and selects the
first cell whose accumulated sum strictly exceeds the uniform draw
`u ∈ [0, total)`: the cumulative prefix before the selected cell is at most
`u`, adding the cell's value strictly exceeds `u`, every earlier cell's
cumulative sum is at most `u`, and the renormalized residual
`(u − prefix) / r[e, p]` — the population-level draw handed to `doAction` by
`runIter` — lies in [0, 1). -/
theorem C3_rowMajor_selection (u : ℚ) (r : List (List ℚ))
    (h0 : 0 ≤ u) (h1 : u < matTotal r) :
    ∃ e p res, selectEvent u r = some (e, p, res) ∧
      e < r.length ∧ p < (r.getD e []).length ∧
      cellPrefix r e p ≤ u ∧ u < cellPrefix r e p + cellVal r e p ∧
      res = (u - cellPrefix r e p) / cellVal r e p ∧
      0 ≤ res ∧ res < 1 ∧
      (∀ p2, p2 < p → cellPrefix r e (p2 + 1) ≤ u) ∧
      (∀ e2, e2 < e → ∀ p2, p2 < (r.getD e2 []).length → cellPrefix r e2 (p2 + 1) ≤ u) := by
  obtain ⟨a, p, res, hsel, halen, hplen, hpre, hthr, hpos, hres, h0r, h1r, hfp, hfa⟩ :=
    selAux_spec u r 0 0 h0 (by simpa [matTotal] using h1)
  have htake : ((r.getD a []).take (p + 1)).sum
      = ((r.getD a []).take p).sum + (r.getD a []).getD p 0 := by
    rw [List.take_succ, List.sum_append]
    congr 1
    cases hg : (r.getD a [])[p]? with
    | none =>
      exact absurd (List.getElem?_eq_none_iff.mp hg) (by omega)
    | some x =>
      simp only [List.getD, List.get?_eq_getElem?] at hg ⊢
      rw [hg]
      simp
  refine ⟨a, p, res, by simpa [selectEvent] using hsel, halen, hplen, ?_, ?_, ?_, h0r, h1r, ?_, ?_⟩
  · simpa [cellPrefix] using hpre
  · have := hthr
    rw [htake] at this
    simpa [cellPrefix, cellVal, add_assoc] using this
  · simpa [cellPrefix, cellVal] using hres
  · intro p2 hp2
    simpa [cellPrefix] using hfp p2 hp2
  · intro e2 he2 p2 hp2
    simpa [cellPrefix] using hfa e2 he2 p2 hp2

/-- Witness for C3 at `u = 3/2` over the matrix `[[1], [2]]`: the scan skips
cell (0,0) (cumulative 1 ≤ 3/2), selects cell (1,0) (cumulative 3 > 3/2) and
renormalizes the residual to 1/4. -/
theorem C3_witness :
    (0 ≤ (3/2 : ℚ) ∧ (3/2 : ℚ) < matTotal [[1], [2]]) ∧
    (∃ e p res, selectEvent (3/2) ([[1], [2]] : List (List ℚ)) = some (e, p, res) ∧
      e < ([[1], [2]] : List (List ℚ)).length ∧
      p < (([[1], [2]] : List (List ℚ)).getD e []).length ∧
      cellPrefix [[1], [2]] e p ≤ (3/2 : ℚ) ∧
      (3/2 : ℚ) < cellPrefix [[1], [2]] e p + cellVal [[1], [2]] e p ∧
      res = ((3/2 : ℚ) - cellPrefix [[1], [2]] e p) / cellVal [[1], [2]] e p ∧
      0 ≤ res ∧ res < 1 ∧
      (∀ p2, p2 < p → cellPrefix [[1], [2]] e (p2 + 1) ≤ (3/2 : ℚ)) ∧
      (∀ e2, e2 < e → ∀ p2, p2 < (([[1], [2]] : List (List ℚ)).getD e2 []).length →
        cellPrefix [[1], [2]] e2 (p2 + 1) ≤ (3/2 : ℚ))) :=
  ⟨by norm_num [matTotal],
   C3_rowMajor_selection (3/2) [[1], [2]] (by norm_num) (by norm_num [matTotal])⟩

/-- C1 (code bug).  The row-index invariant holds on a freshly constructed
population with one host and one vector, and a single `removeVectors` call
breaks it: population.py lines 457-460 delete the removed vector's row from
`self.coefficients_hosts` instead of `self.coefficients_vectors`, leaving the
host matrix with no row for the one live host and the vector matrix with a
stale row and no live vector. -/
theorem C1_removeVectors_breaks_row_invariant :
    rowIndexInvariant C1pop = true ∧
    rowIndexInvariant (Population.removeVectors C1pop [C1vec]) = false ∧
    (Population.removeVectors C1pop [C1vec]).hosts.length = 1 ∧
    (Population.removeVectors C1pop [C1vec]).coefficients_hosts.length = 0 ∧
    (Population.removeVectors C1pop [C1vec]).vectors.length = 0 ∧
    (Population.removeVectors C1pop [C1vec]).coefficients_vectors.length = 1 := by
  decide

/-- C8 (code bug).  `killHost` on a population whose hosts' LETHALITY column
sums to 1 (strictly positive): the weighted draw succeeds and is bound to
`index_vector` (population.py line 967), but line 971 indexes with the
undefined name `index_host`, so the call raises `NameError` and no host dies
(`killVector`, by contrast, kills the selected vector). -/
theorem C8_killHost_raises :
    0 < colSum C8pop.coefficients_hosts Population.LETHALITY ∧
    Population.killHost C8pop (1/2) =
      .error "NameError: name index_host is not defined" :=
  of_decide_eq_true (by with_unfolding_all rfl)

/-- C7 (counterexample).  `addPathogensToHosts` with the genome dictionary
{"A": 1, "BB": 1} on a one-locus population: "A" is valid and is applied to a
host, then "BB" fails validation and the call raises — but the population
state is no longer the original one (the host now carries "A"), refuting
"leaves the Population state unchanged". -/
theorem C7_partial_mutation_counterexample :
    validGenome C7pop.num_loci C7pop.possible_alleles "A" = true ∧
    validGenome C7pop.num_loci C7pop.possible_alleles "BB" = false ∧
    C7result.2.isSome = true ∧
    C7result.1 ≠ C7pop ∧
    (C7result.1.hosts.map (fun h => h.pathogens)) = [[("A", 1)]] := by
  decide

/-- C6 (counterexample).  The origin host carries genome "A" with
multiplicity 2 (acquired twice through the public API); after migrating that
single host, the newly created target host carries "A" with multiplicity 1 —
`{ g:1 for g in host.pathogens }` at population.py line 763 collapses every
multiplicity, so the pathogen multiset is not preserved (the counts are:
origin 1 → 0 hosts, target 0 → 1). -/
theorem C6_multiplicity_counterexample :
    (C6origin.hosts.map (fun h => h.pathogens)) = [[("A", 2)]] ∧
    C6result.map (fun ot => (ot.1.hosts.length, ot.2.hosts.length,
        ot.2.hosts.map (fun h => h.pathogens)))
      = .ok (0, 1, [[("A", 1)]]) :=
  of_decide_eq_true (by with_unfolding_all rfl)

/-- C10 (counterexample).  A dispatched POPULATION_CONTACT_HOST_HOST event
whose neighbor scan selects a neighbor does not propagate any changed flag:
gillespie.py line 323 evaluates the unbound name `target_pop` and the branch
raises `NameError` instead of calling `populationContact`. -/
theorem C10_population_contact_counterexample :
    doAction ext0 ch0 C10pcModel Gillespie.POPULATION_CONTACT_HOST_HOST "a" 0
      = .error "NameError: name target_pop is not defined" :=
  of_decide_eq_true (by with_unfolding_all rfl)

theorem runLoop_done (tf : ℚ) (ts : ℤ) (pe : ℕ) (ivs : List GIv) (dts us : ℕ → ℚ)
    (ch : ℕ → ℕ → ℕ → ℕ) (ext : HVExt) (fuel : ℕ) (s : RState) (h : ¬ s.t_var < tf) :
    runLoop tf ts pe ivs dts us ch ext fuel s = .ok (some s) := by
  cases fuel <;> simp [runLoop, h]

/-- C5 (code bug).  A reachable zero-rate state with one intervention still
pending at the strictly later time 5: the zero-rate branch (gillespie.py
lines 532-547) only fires interventions whose time is at or before the
current clock, so one loop iteration returns the state unchanged — and
therefore the driver loops forever (for every fuel the loop is still
running), never applying the intervention and never advancing the clock. -/
theorem C5_zero_rate_stall :
    runIter 10 0 1000 C5ivs dts0 us0 ch3 ext0 C5state = .ok C5state ∧
    ∀ fuel : ℕ, runLoop 10 0 1000 C5ivs dts0 us0 ch3 ext0 fuel C5state = .ok none := by
  have hiter : runIter 10 0 1000 C5ivs dts0 us0 ch3 ext0 C5state = .ok C5state :=
    of_decide_eq_true (by with_unfolding_all rfl)
  have hguard : C5state.t_var < 10 := of_decide_eq_true (by with_unfolding_all rfl)
  refine ⟨hiter, ?_⟩
  intro fuel
  induction fuel with
  | zero => simp [runLoop, hguard]
  | succ n ihn =>
    rw [runLoop, if_pos hguard, hiter]
    simpa using ihn

/-- C4.  If, at the start of a run-loop iteration, the rate matrix sums to
zero and no scheduled interventions remain unapplied, the iteration sets the
clock directly to the horizon `tf` (the model only absorbs the cached-total
writes `getRates` performs) and the loop terminates: with any remaining fuel
the loop returns, appending the final full snapshot. -/
theorem C4_zero_total_jumps_to_horizon (tf : ℚ) (ts : ℤ) (pe : ℕ) (ivs : List GIv)
    (dts us : ℕ → ℚ) (ch : ℕ → ℕ → ℕ → ℕ) (ext : HVExt) (s : RState) (fuel : ℕ)
    (hlt : s.t_var < tf)
    (hz : matTotal (getRatesM s.model).2 = 0)
    (hiv : ivs.length ≤ s.tracker) :
    runIter tf ts pe ivs dts us ch ext s =
      .ok { s with model := (getRatesM s.model).1, t_var := tf } ∧
    runLoop tf ts pe ivs dts us ch ext (fuel + 1) s =
      .ok (some { s with model := (getRatesM s.model).1, t_var := tf }) := by
  have hm : ¬ (0 : ℚ) < matTotal (getRatesM s.model).2 := by
    rw [hz]
    exact lt_irrefl 0
  have htr : ¬ s.tracker < ivs.length := by omega
  have hiter : runIter tf ts pe ivs dts us ch ext s =
      .ok { s with model := (getRatesM s.model).1, t_var := tf } := by
    simp only [runIter]
    rw [if_neg hm, if_neg htr]
  refine ⟨hiter, ?_⟩
  rw [runLoop, if_pos hlt, hiter]
  simp only [Except.bind]
  exact runLoop_done tf ts pe ivs dts us ch ext fuel _ (by simp)

/-- Witness for C4: the all-zero-rate one-population model at `t0 = 0`,
horizon 1, no interventions; the single iteration jumps to the horizon and
the loop terminates with fuel 1. -/
theorem C4_witness :
    (C4state.t_var < (1 : ℚ) ∧ matTotal (getRatesM C4state.model).2 = 0 ∧
      ([] : List GIv).length ≤ C4state.tracker) ∧
    (runIter 1 0 1000 [] dts0 us0 ch3 ext0 C4state =
      .ok { C4state with model := (getRatesM C4state.model).1, t_var := 1 } ∧
    runLoop 1 0 1000 [] dts0 us0 ch3 ext0 (0 + 1) C4state =
      .ok (some { C4state with model := (getRatesM C4state.model).1, t_var := 1 })) :=
  ⟨⟨of_decide_eq_true (by with_unfolding_all rfl),
    of_decide_eq_true (by with_unfolding_all rfl), by simp⟩,
   C4_zero_total_jumps_to_horizon 1 0 1000 [] dts0 us0 ch3 ext0 C4state 0
     (of_decide_eq_true (by with_unfolding_all rfl))
     (of_decide_eq_true (by with_unfolding_all rfl))
     (by simp)⟩

theorem map_ok_snd_true {α : Type} (x : Except String α) (f : α → ModelG) (m2 : ModelG)
    (c : Bool) (h : x.map (fun q => (f q, true)) = .ok (m2, c)) : c = true := by
  cases x with
  | error e => simp [Except.map] at h
  | ok q =>
    simp [Except.map] at h
    exact h.2

/-- C10 (amended).  Whenever `doAction` returns normally on one of the eight
individual-event classes RECOVER_HOST … KILL_VECTOR, the changed flag it
returns is `True`, regardless of whether the dispatched population action
changed any state; for the three within-population contact classes the flag
is exactly the contact action's own result.  (The population-contact classes
never propagate a flag: when their neighbor scan selects a neighbor they
raise `NameError` — see the counterexample —, otherwise they return
`False`.) -/
theorem C10_doAction_changed_flags :
    (∀ (ext : HVExt) (oracle : ℕ → ℕ → ℕ) (m : ModelG) (act : ℕ) (popId : String)
      (rand : ℚ) (m2 : ModelG) (c : Bool),
      Gillespie.RECOVER_HOST ≤ act → act ≤ Gillespie.KILL_VECTOR →
      doAction ext oracle m act popId rand = .ok (m2, c) → c = true) ∧
    (∀ (ext : HVExt) (oracle : ℕ → ℕ → ℕ) (m : ModelG) (popId : String)
      (rand : ℚ) (m2 : ModelG) (c : Bool),
      doAction ext oracle m Gillespie.CONTACT_HOST_HOST popId rand = .ok (m2, c) →
      ∃ pop2, Population.contactHostHost ext
        (assocGetD m.populations popId emptyPopulation) rand = .ok (pop2, c)) ∧
    (∀ (ext : HVExt) (oracle : ℕ → ℕ → ℕ) (m : ModelG) (popId : String)
      (rand : ℚ) (m2 : ModelG) (c : Bool),
      doAction ext oracle m Gillespie.CONTACT_HOST_VECTOR popId rand = .ok (m2, c) →
      ∃ pop2, Population.contactHostVector ext
        (assocGetD m.populations popId emptyPopulation) rand = .ok (pop2, c)) ∧
    (∀ (ext : HVExt) (oracle : ℕ → ℕ → ℕ) (m : ModelG) (popId : String)
      (rand : ℚ) (m2 : ModelG) (c : Bool),
      doAction ext oracle m Gillespie.CONTACT_VECTOR_HOST popId rand = .ok (m2, c) →
      ∃ pop2, Population.contactVectorHost ext
        (assocGetD m.populations popId emptyPopulation) rand = .ok (pop2, c)) := by
  refine ⟨?_, ?_, ?_, ?_⟩
  · intro ext oracle m act popId rand m2 c h8 h15 hok
    simp only [Gillespie.RECOVER_HOST, Gillespie.KILL_VECTOR] at h8 h15
    interval_cases act <;>
      · simp only [doAction, Gillespie.MIGRATE_HOST, Gillespie.MIGRATE_VECTOR, Gillespie.POPULATION_CONTACT_HOST_HOST, Gillespie.POPULATION_CONTACT_HOST_VECTOR, Gillespie.POPULATION_CONTACT_VECTOR_HOST, Gillespie.CONTACT_HOST_HOST, Gillespie.CONTACT_HOST_VECTOR, Gillespie.CONTACT_VECTOR_HOST, Gillespie.RECOVER_HOST, Gillespie.RECOVER_VECTOR, Gillespie.MUTATE_HOST, Gillespie.MUTATE_VECTOR, Gillespie.RECOMBINE_HOST, Gillespie.RECOMBINE_VECTOR, Gillespie.KILL_HOST, Gillespie.KILL_VECTOR] at hok
        norm_num at hok
        exact map_ok_snd_true _ _ _ _ hok
  · intro ext oracle m popId rand m2 c hok
    simp only [doAction, Gillespie.MIGRATE_HOST, Gillespie.MIGRATE_VECTOR, Gillespie.POPULATION_CONTACT_HOST_HOST, Gillespie.POPULATION_CONTACT_HOST_VECTOR, Gillespie.POPULATION_CONTACT_VECTOR_HOST, Gillespie.CONTACT_HOST_HOST, Gillespie.CONTACT_HOST_VECTOR, Gillespie.CONTACT_VECTOR_HOST, Gillespie.RECOVER_HOST, Gillespie.RECOVER_VECTOR, Gillespie.MUTATE_HOST, Gillespie.MUTATE_VECTOR, Gillespie.RECOMBINE_HOST, Gillespie.RECOMBINE_VECTOR, Gillespie.KILL_HOST, Gillespie.KILL_VECTOR] at hok
    norm_num at hok
    cases hcc : Population.contactHostHost ext
        (assocGetD m.populations popId emptyPopulation) rand with
    | error e => rw [hcc] at hok; simp [Except.map] at hok
    | ok pc =>
      rw [hcc] at hok
      simp [Except.map] at hok
      exact ⟨pc.1, by rw [← hok.2]⟩
  · intro ext oracle m popId rand m2 c hok
    simp only [doAction, Gillespie.MIGRATE_HOST, Gillespie.MIGRATE_VECTOR, Gillespie.POPULATION_CONTACT_HOST_HOST, Gillespie.POPULATION_CONTACT_HOST_VECTOR, Gillespie.POPULATION_CONTACT_VECTOR_HOST, Gillespie.CONTACT_HOST_HOST, Gillespie.CONTACT_HOST_VECTOR, Gillespie.CONTACT_VECTOR_HOST, Gillespie.RECOVER_HOST, Gillespie.RECOVER_VECTOR, Gillespie.MUTATE_HOST, Gillespie.MUTATE_VECTOR, Gillespie.RECOMBINE_HOST, Gillespie.RECOMBINE_VECTOR, Gillespie.KILL_HOST, Gillespie.KILL_VECTOR] at hok
    norm_num at hok
    cases hcc : Population.contactHostVector ext
        (assocGetD m.populations popId emptyPopulation) rand with
    | error e => rw [hcc] at hok; simp [Except.map] at hok
    | ok pc =>
      rw [hcc] at hok
      simp [Except.map] at hok
      exact ⟨pc.1, by rw [← hok.2]⟩
  · intro ext oracle m popId rand m2 c hok
    simp only [doAction, Gillespie.MIGRATE_HOST, Gillespie.MIGRATE_VECTOR, Gillespie.POPULATION_CONTACT_HOST_HOST, Gillespie.POPULATION_CONTACT_HOST_VECTOR, Gillespie.POPULATION_CONTACT_VECTOR_HOST, Gillespie.CONTACT_HOST_HOST, Gillespie.CONTACT_HOST_VECTOR, Gillespie.CONTACT_VECTOR_HOST, Gillespie.RECOVER_HOST, Gillespie.RECOVER_VECTOR, Gillespie.MUTATE_HOST, Gillespie.MUTATE_VECTOR, Gillespie.RECOMBINE_HOST, Gillespie.RECOMBINE_VECTOR, Gillespie.KILL_HOST, Gillespie.KILL_VECTOR] at hok
    norm_num at hok
    cases hcc : Population.contactVectorHost ext
        (assocGetD m.populations popId emptyPopulation) rand with
    | error e => rw [hcc] at hok; simp [Except.map] at hok
    | ok pc =>
      rw [hcc] at hok
      simp [Except.map] at hok
      exact ⟨pc.1, by rw [← hok.2]⟩

/-- Witness for C10: dispatching RECOVER_HOST on a model with one infected
host succeeds, and the returned flag is `True` by the theorem. -/
theorem C10_witness :
    (Gillespie.RECOVER_HOST ≤ Gillespie.RECOVER_HOST ∧
      Gillespie.RECOVER_HOST ≤ Gillespie.KILL_VECTOR) ∧
    (doAction ext0 ch0 C10model Gillespie.RECOVER_HOST "k" (1/2)).map Prod.snd
      = .ok true := by
  refine ⟨⟨le_refl _, by decide⟩, ?_⟩
  cases hEq : doAction ext0 ch0 C10model Gillespie.RECOVER_HOST "k" (1/2) with
  | error e =>
    have hok : (doAction ext0 ch0 C10model Gillespie.RECOVER_HOST "k" (1/2)).isOk = true :=
      of_decide_eq_true (by with_unfolding_all rfl)
    rw [hEq] at hok
    simp [Except.isOk, Except.toBool] at hok
  | ok p =>
    obtain ⟨m2, c⟩ := p
    have hc := C10_doAction_changed_flags.1 ext0 ch0 C10model Gillespie.RECOVER_HOST "k"
      (1/2) m2 c (le_refl _) (by decide) hEq
    rw [hc]
    rfl

theorem hostAcquirePathogen_num_loci (ext : HVExt) (p : Population) (k : ℕ) (g : String) :
    (hostAcquirePathogen ext p k g).num_loci = p.num_loci ∧
    (hostAcquirePathogen ext p k g).possible_alleles = p.possible_alleles := by
  unfold hostAcquirePathogen
  cases p.hosts.find? (fun h => h.oid == k) with
  | none => exact ⟨rfl, rfl⟩
  | some h =>
    dsimp only
    split <;> exact ⟨rfl, rfl⟩

theorem foldAcquireHosts_fields (ext : HVExt) (g : String) :
    ∀ (chosen : List ℕ) (p : Population),
    ((chosen.foldl (fun q o => hostAcquirePathogen ext q o g) p).num_loci = p.num_loci ∧
     (chosen.foldl (fun q o => hostAcquirePathogen ext q o g) p).possible_alleles
       = p.possible_alleles) := by
  intro chosen
  induction chosen with
  | nil => intro p; exact ⟨rfl, rfl⟩
  | cons o rest ih =>
    intro p
    have h1 := hostAcquirePathogen_num_loci ext p o g
    have h2 := ih (hostAcquirePathogen ext p o g)
    simp only [List.foldl_cons]
    exact ⟨h2.1.trans h1.1, h2.2.trans h1.2⟩

theorem npChoiceAux_ok (oracle : ℕ → ℕ) :
    ∀ (n : ℕ) (pool : List ℕ) (step : ℕ), n ≤ pool.length →
    ∃ xs, npChoiceAux oracle step pool n = .ok xs := by
  intro n
  induction n with
  | zero => intro pool step _; exact ⟨[], rfl⟩
  | succ n ih =>
    intro pool step hlen
    have hpos : 0 < pool.length := by omega
    have hidx : oracle step % pool.length < pool.length := Nat.mod_lt _ hpos
    cases hg : pool.get? (oracle step % pool.length) with
    | none =>
      exact absurd (List.get?_eq_none.mp hg) (by omega)
    | some x =>
      have herase : (pool.eraseIdx (oracle step % pool.length)).length = pool.length - 1 := by
        rw [List.length_eraseIdx]
        simp [hidx]
      obtain ⟨xs, hxs⟩ := ih (pool.eraseIdx (oracle step % pool.length)) (step + 1)
        (by omega)
      refine ⟨x :: xs, ?_⟩
      simp only [npChoiceAux, hg, hxs, Except.map]

theorem addPathAuxHosts_invalid (ext : HVExt) (oracle : ℕ → ℕ → ℕ) (pool : List ℕ)
    (g : String) (n : ℕ) (post : List (String × ℕ)) :
    ∀ (pre : List (String × ℕ)) (gi : ℕ) (p : Population),
    (∀ gn ∈ pre, validGenome p.num_loci p.possible_alleles gn.1 = true) →
    (∀ gn ∈ pre, gn.2 ≤ pool.length) →
    validGenome p.num_loci p.possible_alleles g = false →
    addPathogensToHostsAux ext oracle gi pool p (pre ++ (g, n) :: post)
      = ((addPathogensToHostsAux ext oracle gi pool p pre).1,
         some ("ValueError: Genome " ++ g ++ " must be of length "
           ++ toString p.num_loci ++ " and contain only allowed characters")) := by
  intro pre
  induction pre with
  | nil =>
    intro gi p _ _ hinv
    simp only [List.nil_append, addPathogensToHostsAux, hinv]
    simp
  | cons g0n0 rest ih =>
    obtain ⟨g0, n0⟩ := g0n0
    intro gi p hval hsz hinv
    have hg0 : validGenome p.num_loci p.possible_alleles g0 = true :=
      hval (g0, n0) (List.mem_cons_self _ _)
    obtain ⟨xs, hxs⟩ := npChoiceAux_ok (oracle gi) n0 pool 0
      (hsz (g0, n0) (List.mem_cons_self _ _))
    have hfold := foldAcquireHosts_fields ext g0 xs p
    simp only [List.cons_append, addPathogensToHostsAux, hg0, npRandomChoice, hxs,
      if_true, List.append_eq]
    rw [ih (gi + 1) (xs.foldl (fun q oidK => hostAcquirePathogen ext q oidK g0) p)
      (fun gn hgn => by rw [hfold.1, hfold.2]; exact hval gn (List.mem_cons_of_mem _ hgn))
      (fun gn hgn => hsz gn (List.mem_cons_of_mem _ hgn))
      (by rw [hfold.1, hfold.2]; exact hinv)]
    rw [hfold.1]

theorem vectorAcquirePathogen_num_loci (ext : HVExt) (p : Population) (k : ℕ) (g : String) :
    (vectorAcquirePathogen ext p k g).num_loci = p.num_loci ∧
    (vectorAcquirePathogen ext p k g).possible_alleles = p.possible_alleles := by
  unfold vectorAcquirePathogen
  cases p.vectors.find? (fun v => v.oid == k) with
  | none => exact ⟨rfl, rfl⟩
  | some v =>
    dsimp only
    split <;> exact ⟨rfl, rfl⟩

theorem foldAcquireVectors_fields (ext : HVExt) (g : String) :
    ∀ (chosen : List ℕ) (p : Population),
    ((chosen.foldl (fun q o => vectorAcquirePathogen ext q o g) p).num_loci = p.num_loci ∧
     (chosen.foldl (fun q o => vectorAcquirePathogen ext q o g) p).possible_alleles
       = p.possible_alleles) := by
  intro chosen
  induction chosen with
  | nil => intro p; exact ⟨rfl, rfl⟩
  | cons o rest ih =>
    intro p
    have h1 := vectorAcquirePathogen_num_loci ext p o g
    have h2 := ih (vectorAcquirePathogen ext p o g)
    simp only [List.foldl_cons]
    exact ⟨h2.1.trans h1.1, h2.2.trans h1.2⟩

theorem addPathAuxVectors_invalid (ext : HVExt) (oracle : ℕ → ℕ → ℕ) (pool : List ℕ)
    (g : String) (n : ℕ) (post : List (String × ℕ)) :
    ∀ (pre : List (String × ℕ)) (gi : ℕ) (p : Population),
    (∀ gn ∈ pre, validGenome p.num_loci p.possible_alleles gn.1 = true) →
    (∀ gn ∈ pre, gn.2 ≤ pool.length) →
    validGenome p.num_loci p.possible_alleles g = false →
    addPathogensToVectorsAux ext oracle gi pool p (pre ++ (g, n) :: post)
      = ((addPathogensToVectorsAux ext oracle gi pool p pre).1,
         some ("ValueError: Genome " ++ g ++ " must be of length "
           ++ toString p.num_loci ++ " and contain only allowed characters")) := by
  intro pre
  induction pre with
  | nil =>
    intro gi p _ _ hinv
    simp only [List.nil_append, addPathogensToVectorsAux, hinv]
    simp
  | cons g0n0 rest ih =>
    obtain ⟨g0, n0⟩ := g0n0
    intro gi p hval hsz hinv
    have hg0 : validGenome p.num_loci p.possible_alleles g0 = true :=
      hval (g0, n0) (List.mem_cons_self _ _)
    obtain ⟨xs, hxs⟩ := npChoiceAux_ok (oracle gi) n0 pool 0
      (hsz (g0, n0) (List.mem_cons_self _ _))
    have hfold := foldAcquireVectors_fields ext g0 xs p
    simp only [List.cons_append, addPathogensToVectorsAux, hg0, npRandomChoice, hxs,
      if_true, List.append_eq]
    rw [ih (gi + 1) (xs.foldl (fun q oidK => vectorAcquirePathogen ext q oidK g0) p)
      (fun gn hgn => by rw [hfold.1, hfold.2]; exact hval gn (List.mem_cons_of_mem _ hgn))
      (fun gn hgn => hsz gn (List.mem_cons_of_mem _ hgn))
      (by rw [hfold.1, hfold.2]; exact hinv)]
    rw [hfold.1]

/-- C7 (amended).  If some genome in the dictionary is invalid (wrong length
or an allele outside the per-locus alphabet), `addPathogensToHosts` /
`addPathogensToVectors` raises a validation error when the iteration reaches
the first invalid genome — but it does NOT leave the population unchanged in
general: all valid genomes before the invalid one (whose sampling requests
fit the pool) have already been applied, and the resulting state is exactly
the state after processing that prefix; only when the invalid genome comes
first is the state the original one. -/
theorem C7_validation_aborts_after_prefix :
    (∀ (ext : HVExt) (oracle : ℕ → ℕ → ℕ) (p : Population) (pre : List (String × ℕ))
      (g : String) (n : ℕ) (post : List (String × ℕ)) (hostsA : List Individual),
      (∀ gn ∈ pre, validGenome p.num_loci p.possible_alleles gn.1 = true) →
      (∀ gn ∈ pre, gn.2 ≤ (if hostsA.isEmpty then p.hosts else hostsA).length) →
      validGenome p.num_loci p.possible_alleles g = false →
      Population.addPathogensToHosts ext oracle p (pre ++ (g, n) :: post) hostsA
        = ((Population.addPathogensToHosts ext oracle p pre hostsA).1,
           some ("ValueError: Genome " ++ g ++ " must be of length "
             ++ toString p.num_loci ++ " and contain only allowed characters"))) ∧
    (∀ (ext : HVExt) (oracle : ℕ → ℕ → ℕ) (p : Population) (pre : List (String × ℕ))
      (g : String) (n : ℕ) (post : List (String × ℕ)) (vectorsA : List Individual),
      (∀ gn ∈ pre, validGenome p.num_loci p.possible_alleles gn.1 = true) →
      (∀ gn ∈ pre, gn.2 ≤ (if vectorsA.isEmpty then p.vectors else vectorsA).length) →
      validGenome p.num_loci p.possible_alleles g = false →
      Population.addPathogensToVectors ext oracle p (pre ++ (g, n) :: post) vectorsA
        = ((Population.addPathogensToVectors ext oracle p pre vectorsA).1,
           some ("ValueError: Genome " ++ g ++ " must be of length "
             ++ toString p.num_loci ++ " and contain only allowed characters"))) := by
  constructor
  · intro ext oracle p pre g n post hostsA hval hsz hinv
    simp only [Population.addPathogensToHosts]
    exact addPathAuxHosts_invalid ext oracle _ g n post pre 0 p hval
      (fun gn hgn => by simpa using hsz gn hgn) hinv
  · intro ext oracle p pre g n post vectorsA hval hsz hinv
    simp only [Population.addPathogensToVectors]
    exact addPathAuxVectors_invalid ext oracle _ g n post pre 0 p hval
      (fun gn hgn => by simpa using hsz gn hgn) hinv

/-- Witness for C7 at the counterexample input: "A" is valid and fits the
one-host pool, "BB" is invalid, so the call returns the state after applying
"A" together with the raised validation error. -/
theorem C7_witness :
    ((∀ gn ∈ ([("A", 1)] : List (String × ℕ)),
        validGenome C7pop.num_loci C7pop.possible_alleles gn.1 = true) ∧
     (∀ gn ∈ ([("A", 1)] : List (String × ℕ)),
        gn.2 ≤ (if ([] : List Individual).isEmpty then C7pop.hosts else []).length) ∧
     validGenome C7pop.num_loci C7pop.possible_alleles "BB" = false) ∧
    Population.addPathogensToHosts ext0 ch0 C7pop ([("A", 1)] ++ ("BB", 1) :: []) []
      = ((Population.addPathogensToHosts ext0 ch0 C7pop [("A", 1)] []).1,
         some ("ValueError: Genome " ++ "BB" ++ " must be of length "
           ++ toString C7pop.num_loci ++ " and contain only allowed characters")) :=
  ⟨⟨of_decide_eq_true (by with_unfolding_all rfl),
    of_decide_eq_true (by with_unfolding_all rfl),
    of_decide_eq_true (by with_unfolding_all rfl)⟩,
   C7_validation_aborts_after_prefix.1 ext0 ch0 C7pop [("A", 1)] "BB" 1 [] []
     (of_decide_eq_true (by with_unfolding_all rfl))
     (of_decide_eq_true (by with_unfolding_all rfl))
     (of_decide_eq_true (by with_unfolding_all rfl))⟩

theorem pyRemove_length_of_mem (p : α → Bool) :
    ∀ (l : List α), (∃ x ∈ l, p x = true) → (pyRemove p l).length + 1 = l.length := by
  intro l
  induction l with
  | nil => rintro ⟨x, hx, _⟩; cases hx
  | cons a rest ih =>
    rintro ⟨x, hx, hpx⟩
    by_cases ha : p a
    · simp [pyRemove, ha]
    · cases hx with
      | head =>
        exact absurd hpx (by simpa using ha)
      | tail _ hxr =>
        simp only [pyRemove, if_neg ha, List.length_cons]
        rw [ih ⟨x, hxr, hpx⟩]

theorem find?_append_cons (p : α → Bool) (cur : α) :
    ∀ (l1 l2 : List α), (∀ x ∈ l1, p x = false) → p cur = true →
    (l1 ++ cur :: l2).find? p = some cur := by
  intro l1
  induction l1 with
  | nil => intro l2 _ hcur; simp [List.find?, hcur]
  | cons a rest ih =>
    intro l2 hpre hcur
    have ha : p a = false := hpre a (List.mem_cons_self _ _)
    simp only [List.cons_append, List.find?, ha]
    exact ih l2 (fun x hx => hpre x (List.mem_cons_of_mem _ hx)) hcur

theorem pyUpdateFirst_append_cons (p : α → Bool) (f : α → α) (cur : α) :
    ∀ (l1 l2 : List α), (∀ x ∈ l1, p x = false) → p cur = true →
    pyUpdateFirst p f (l1 ++ cur :: l2) = l1 ++ f cur :: l2 := by
  intro l1
  induction l1 with
  | nil => intro l2 _ hcur; simp [pyUpdateFirst, hcur]
  | cons a rest ih =>
    intro l2 hpre hcur
    have ha : p a = false := hpre a (List.mem_cons_self _ _)
    simp only [List.cons_append, pyUpdateFirst, ha, Bool.false_eq_true, if_false,
      List.append_eq]
    rw [ih l2 (fun x hx => hpre x (List.mem_cons_of_mem _ hx)) hcur]

theorem incrGenome_not_mem (g : String) :
    ∀ (ps : List (String × ℕ)), g ∉ ps.map Prod.fst →
    incrGenome ps g = ps ++ [(g, 1)] := by
  intro ps
  induction ps with
  | nil => intro _; rfl
  | cons gm rest ih =>
    intro hnm
    simp only [List.map_cons, List.mem_cons] at hnm
    push_neg at hnm
    simp only [incrGenome, List.cons_append]
    rw [if_neg (by simpa using (Ne.symm hnm.1)), ih hnm.2]

theorem removeHosts_single_length (p : Population) (v : Individual)
    (hmem : ∃ h ∈ p.hosts, h.oid = v.oid) :
    (Population.removeHosts p [v]).hosts.length + 1 = p.hosts.length := by
  have hfind : (p.hosts.find? (fun h => h.oid == v.oid)).isSome := by
    rw [List.find?_isSome]
    obtain ⟨h, hh, he⟩ := hmem
    exact ⟨h, hh, by simpa using he⟩
  obtain ⟨cur, hcur⟩ := Option.isSome_iff_exists.mp hfind
  have hcurmem : cur ∈ p.hosts := List.mem_of_find?_eq_some hcur
  simp only [Population.removeHosts, List.foldl_cons, List.foldl_nil, hcur]
  split <;>
  · simp only [List.length_map]
    exact pyRemove_length_of_mem _ p.hosts ⟨cur, hcurmem, by simp⟩

theorem removeVectors_single_length (p : Population) (v : Individual)
    (hmem : ∃ w ∈ p.vectors, w.oid = v.oid) :
    (Population.removeVectors p [v]).vectors.length + 1 = p.vectors.length := by
  have hfind : (p.vectors.find? (fun w => w.oid == v.oid)).isSome := by
    rw [List.find?_isSome]
    obtain ⟨w, hw, he⟩ := hmem
    exact ⟨w, hw, by simpa using he⟩
  obtain ⟨cur, hcur⟩ := Option.isSome_iff_exists.mp hfind
  have hcurmem : cur ∈ p.vectors := List.mem_of_find?_eq_some hcur
  simp only [Population.removeVectors, List.foldl_cons, List.foldl_nil, hcur]
  split <;>
  · simp only [List.length_map]
    exact pyRemove_length_of_mem _ p.vectors ⟨cur, hcurmem, by simp⟩

theorem addHosts_one (p : Population) :
    Population.addHosts p 1 =
      ({ p with
          next_oid := p.next_oid + 1,
          coefficients_hosts :=
            p.coefficients_hosts ++ [List.replicate Population.NUM_COEFFICIENTS 0],
          hosts := p.hosts ++
            [{ oid := p.next_oid, id := p.id ++ "_" ++ toString (0 + p.hosts.length),
                pathogens := [], sum_fitness := 0,
                coefficient_index := p.coefficients_hosts.length,
                protection_sequences := [] }],
          healthy_hosts := p.healthy_hosts ++ [p.next_oid] },
       [{ oid := p.next_oid, id := p.id ++ "_" ++ toString (0 + p.hosts.length),
          pathogens := [], sum_fitness := 0,
          coefficient_index := p.coefficients_hosts.length,
          protection_sequences := [] }]) := by
  have hr : List.range 1 = [0] := rfl
  simp [Population.addHosts, hostInit, hr]

theorem addVectors_one (p : Population) :
    Population.addVectors p 1 =
      ({ p with
          next_oid := p.next_oid + 1,
          coefficients_vectors :=
            p.coefficients_vectors ++ [List.replicate Population.NUM_COEFFICIENTS 0],
          vectors := p.vectors ++
            [{ oid := p.next_oid, id := p.id ++ "_" ++ toString (0 + p.vectors.length),
                pathogens := [], sum_fitness := 0,
                coefficient_index := p.coefficients_vectors.length,
                protection_sequences := [] }] },
       [{ oid := p.next_oid, id := p.id ++ "_" ++ toString (0 + p.vectors.length),
          pathogens := [], sum_fitness := 0,
          coefficient_index := p.coefficients_vectors.length,
          protection_sequences := [] }]) := by
  have hr : List.range 1 = [0] := rfl
  simp [Population.addVectors, vectorInit, hr]

theorem hostAcquire_at (ext : HVExt) (q : Population) (K : ℕ) (g : String)
    (hs1 hs2 : List Individual) (cur : Individual)
    (hsplit : q.hosts = hs1 ++ cur :: hs2) (hK : cur.oid = K)
    (hpre : ∀ h ∈ hs1, h.oid ≠ K) :
    (hostAcquirePathogen ext q K g).hosts
      = hs1 ++ { cur with pathogens := incrGenome cur.pathogens g,
                          sum_fitness := cur.sum_fitness + ext.fitnessHost g } :: hs2 ∧
    (hostAcquirePathogen ext q K g).num_loci = q.num_loci ∧
    (hostAcquirePathogen ext q K g).possible_alleles = q.possible_alleles := by
  have hfind : q.hosts.find? (fun h => h.oid == K) = some cur := by
    rw [hsplit]
    exact find?_append_cons _ cur hs1 hs2
      (fun x hx => by simpa using hpre x hx) (by simpa using hK)
  have hupd : pyUpdateFirst (fun x => x.oid == K)
      (fun _ => { cur with pathogens := incrGenome cur.pathogens g,
                           sum_fitness := cur.sum_fitness + ext.fitnessHost g }) q.hosts
      = hs1 ++ { cur with pathogens := incrGenome cur.pathogens g,
                          sum_fitness := cur.sum_fitness + ext.fitnessHost g } :: hs2 := by
    rw [hsplit]
    exact pyUpdateFirst_append_cons _ _ cur hs1 hs2
      (fun x hx => by simpa using hpre x hx) (by simpa using hK)
  unfold hostAcquirePathogen
  rw [hfind]
  dsimp only
  split <;> exact ⟨hupd, rfl, rfl⟩

theorem npRandomChoice_singleton (oracle : ℕ → ℕ) (K : ℕ) :
    npRandomChoice oracle [K] 1 = .ok [K] := by
  simp [npRandomChoice, npChoiceAux, Nat.mod_one, Except.map]

theorem addPathAuxHosts_single (ext : HVExt) (oracle : ℕ → ℕ → ℕ) (K : ℕ) :
    ∀ (gs : List (String × ℕ)) (gi : ℕ) (q : Population) (hs1 hs2 : List Individual)
      (cur : Individual),
    (∀ gn ∈ gs, gn.2 = 1) →
    (∀ gn ∈ gs, validGenome q.num_loci q.possible_alleles gn.1 = true) →
    (gs.map Prod.fst).Nodup →
    (∀ gn ∈ gs, gn.1 ∉ cur.pathogens.map Prod.fst) →
    q.hosts = hs1 ++ cur :: hs2 → cur.oid = K → (∀ h ∈ hs1, h.oid ≠ K) →
    ∃ q2 cur2, addPathogensToHostsAux ext oracle gi [K] q gs = (q2, none) ∧
      q2.hosts = hs1 ++ cur2 :: hs2 ∧
      cur2.pathogens = cur.pathogens ++ gs.map (fun gn => (gn.1, 1)) ∧
      cur2.oid = K := by
  intro gs
  induction gs with
  | nil =>
    intro gi q hs1 hs2 cur _ _ _ _ hsplit hK _
    exact ⟨q, cur, rfl, hsplit, by simp, hK⟩
  | cons gn0 rest ih =>
    obtain ⟨g, n⟩ := gn0
    intro gi q hs1 hs2 cur hcount hval hnodup hdisj hsplit hK hpre
    have hn : n = 1 := hcount (g, n) (List.mem_cons_self _ _)
    subst hn
    have hg : validGenome q.num_loci q.possible_alleles g = true :=
      hval _ (List.mem_cons_self _ _)
    have hacq := hostAcquire_at ext q K g hs1 hs2 cur hsplit hK hpre
    have hinc : incrGenome cur.pathogens g = cur.pathogens ++ [(g, 1)] :=
      incrGenome_not_mem g _ (hdisj _ (List.mem_cons_self _ _))
    have hkeys : ∀ gn1 ∈ rest, gn1.1 ∉
        ({ cur with pathogens := incrGenome cur.pathogens g,
                    sum_fitness := cur.sum_fitness + ext.fitnessHost g }
          : Individual).pathogens.map Prod.fst := by
      intro gn1 hgn1
      simp only [hinc, List.map_append, List.mem_append]
      push_neg
      refine ⟨hdisj gn1 (List.mem_cons_of_mem _ hgn1), ?_⟩
      simp only [List.map_cons, List.map_nil, List.mem_singleton]
      intro hEq
      have hnd := hnodup
      simp only [List.map_cons, List.nodup_cons] at hnd
      exact hnd.1 (hEq ▸ List.mem_map_of_mem Prod.fst hgn1)
    obtain ⟨q2, cur2, h1, h2, h3, h4⟩ := ih (gi + 1) (hostAcquirePathogen ext q K g)
      hs1 hs2
      ({ cur with pathogens := incrGenome cur.pathogens g,
                  sum_fitness := cur.sum_fitness + ext.fitnessHost g })
      (fun gn1 hgn1 => hcount gn1 (List.mem_cons_of_mem _ hgn1))
      (fun gn1 hgn1 => by
        rw [hacq.2.1, hacq.2.2]
        exact hval gn1 (List.mem_cons_of_mem _ hgn1))
      (by simpa using (List.nodup_cons.mp (by simpa using hnodup)).2)
      hkeys
      hacq.1 hK hpre
    refine ⟨q2, cur2, ?_, h2, ?_, h4⟩
    · simp only [addPathogensToHostsAux, hg, if_true, npRandomChoice_singleton,
        List.foldl_cons, List.foldl_nil]
      exact h1
    · rw [h3]
      simp only [hinc, List.map_cons]
      rw [List.append_assoc]
      rfl

theorem vectorAcquire_at (ext : HVExt) (q : Population) (K : ℕ) (g : String)
    (vs1 vs2 : List Individual) (cur : Individual)
    (hsplit : q.vectors = vs1 ++ cur :: vs2) (hK : cur.oid = K)
    (hpre : ∀ w ∈ vs1, w.oid ≠ K) :
    (vectorAcquirePathogen ext q K g).vectors
      = vs1 ++ { cur with pathogens := incrGenome cur.pathogens g,
                          sum_fitness := cur.sum_fitness + ext.fitnessVector g } :: vs2 ∧
    (vectorAcquirePathogen ext q K g).num_loci = q.num_loci ∧
    (vectorAcquirePathogen ext q K g).possible_alleles = q.possible_alleles := by
  have hfind : q.vectors.find? (fun w => w.oid == K) = some cur := by
    rw [hsplit]
    exact find?_append_cons _ cur vs1 vs2
      (fun x hx => by simpa using hpre x hx) (by simpa using hK)
  have hupd : pyUpdateFirst (fun x => x.oid == K)
      (fun _ => { cur with pathogens := incrGenome cur.pathogens g,
                           sum_fitness := cur.sum_fitness + ext.fitnessVector g }) q.vectors
      = vs1 ++ { cur with pathogens := incrGenome cur.pathogens g,
                          sum_fitness := cur.sum_fitness + ext.fitnessVector g } :: vs2 := by
    rw [hsplit]
    exact pyUpdateFirst_append_cons _ _ cur vs1 vs2
      (fun x hx => by simpa using hpre x hx) (by simpa using hK)
  unfold vectorAcquirePathogen
  rw [hfind]
  dsimp only
  split <;> exact ⟨hupd, rfl, rfl⟩

theorem addPathAuxVectors_single (ext : HVExt) (oracle : ℕ → ℕ → ℕ) (K : ℕ) :
    ∀ (gs : List (String × ℕ)) (gi : ℕ) (q : Population) (vs1 vs2 : List Individual)
      (cur : Individual),
    (∀ gn ∈ gs, gn.2 = 1) →
    (∀ gn ∈ gs, validGenome q.num_loci q.possible_alleles gn.1 = true) →
    (gs.map Prod.fst).Nodup →
    (∀ gn ∈ gs, gn.1 ∉ cur.pathogens.map Prod.fst) →
    q.vectors = vs1 ++ cur :: vs2 → cur.oid = K → (∀ w ∈ vs1, w.oid ≠ K) →
    ∃ q2 cur2, addPathogensToVectorsAux ext oracle gi [K] q gs = (q2, none) ∧
      q2.vectors = vs1 ++ cur2 :: vs2 ∧
      cur2.pathogens = cur.pathogens ++ gs.map (fun gn => (gn.1, 1)) ∧
      cur2.oid = K := by
  intro gs
  induction gs with
  | nil =>
    intro gi q vs1 vs2 cur _ _ _ _ hsplit hK _
    exact ⟨q, cur, rfl, hsplit, by simp, hK⟩
  | cons gn0 rest ih =>
    obtain ⟨g, n⟩ := gn0
    intro gi q vs1 vs2 cur hcount hval hnodup hdisj hsplit hK hpre
    have hn : n = 1 := hcount (g, n) (List.mem_cons_self _ _)
    subst hn
    have hg : validGenome q.num_loci q.possible_alleles g = true :=
      hval _ (List.mem_cons_self _ _)
    have hacq := vectorAcquire_at ext q K g vs1 vs2 cur hsplit hK hpre
    have hinc : incrGenome cur.pathogens g = cur.pathogens ++ [(g, 1)] :=
      incrGenome_not_mem g _ (hdisj _ (List.mem_cons_self _ _))
    have hkeys : ∀ gn1 ∈ rest, gn1.1 ∉
        ({ cur with pathogens := incrGenome cur.pathogens g,
                    sum_fitness := cur.sum_fitness + ext.fitnessVector g }
          : Individual).pathogens.map Prod.fst := by
      intro gn1 hgn1
      simp only [hinc, List.map_append, List.mem_append]
      push_neg
      refine ⟨hdisj gn1 (List.mem_cons_of_mem _ hgn1), ?_⟩
      simp only [List.map_cons, List.map_nil, List.mem_singleton]
      intro hEq
      have hnd := hnodup
      simp only [List.map_cons, List.nodup_cons] at hnd
      exact hnd.1 (hEq ▸ List.mem_map_of_mem Prod.fst hgn1)
    obtain ⟨q2, cur2, h1, h2, h3, h4⟩ := ih (gi + 1) (vectorAcquirePathogen ext q K g)
      vs1 vs2
      ({ cur with pathogens := incrGenome cur.pathogens g,
                  sum_fitness := cur.sum_fitness + ext.fitnessVector g })
      (fun gn1 hgn1 => hcount gn1 (List.mem_cons_of_mem _ hgn1))
      (fun gn1 hgn1 => by
        rw [hacq.2.1, hacq.2.2]
        exact hval gn1 (List.mem_cons_of_mem _ hgn1))
      (by simpa using (List.nodup_cons.mp (by simpa using hnodup)).2)
      hkeys
      hacq.1 hK hpre
    refine ⟨q2, cur2, ?_, h2, ?_, h4⟩
    · simp only [addPathogensToVectorsAux, hg, if_true, npRandomChoice_singleton,
        List.foldl_cons, List.foldl_nil]
      exact h1
    · rw [h3]
      simp only [hinc, List.map_cons]
      rw [List.append_assoc]
      rfl

theorem migrateMoveHost_spec (ext : HVExt) (oracle : ℕ → ℕ → ℕ)
    (origin target : Population) (host : Individual)
    (hmem : host ∈ origin.hosts)
    (hvalid : ∀ gm ∈ host.pathogens,
      validGenome target.num_loci target.possible_alleles gm.1 = true)
    (hnodup : (host.pathogens.map Prod.fst).Nodup)
    (hoid : ∀ h2 ∈ target.hosts, h2.oid < target.next_oid) :
    ∃ o2 t2, migrateMoveHost ext oracle origin target host = .ok (o2, t2) ∧
      o2.hosts.length + 1 = origin.hosts.length ∧
      t2.hosts.length = target.hosts.length + 1 ∧
      ∃ newHost, t2.hosts.getLast? = some newHost ∧
        newHost.pathogens = host.pathogens.map (fun gm => (gm.1, 1)) := by
  have hkeys : (host.pathogens.map (fun gm : String × ℕ => (gm.1, 1))).map Prod.fst
      = host.pathogens.map Prod.fst := by
    simp [List.map_map]
  obtain ⟨q2, cur2, h1, h2, h3, h4⟩ :=
    addPathAuxHosts_single ext oracle target.next_oid
      (host.pathogens.map (fun gm => (gm.1, 1))) 0
      (Population.addHosts target 1).1
      target.hosts []
      ({ oid := target.next_oid,
         id := target.id ++ "_" ++ toString (0 + target.hosts.length),
         pathogens := [], sum_fitness := 0,
         coefficient_index := target.coefficients_hosts.length,
         protection_sequences := [] })
      (by
        intro gn hgn
        obtain ⟨gm, _, rfl⟩ := List.mem_map.mp hgn
        rfl)
      (by
        intro gn hgn
        obtain ⟨gm, hgm, rfl⟩ := List.mem_map.mp hgn
        rw [addHosts_one]
        exact hvalid gm hgm)
      (by rw [hkeys]; exact hnodup)
      (by intro gn _; simp)
      (by rw [addHosts_one])
      rfl
      (fun h2m hh2 => ne_of_lt (hoid h2m hh2))
  simp only [addHosts_one] at h1
  refine ⟨Population.removeHosts origin [host], q2, ?_,
    removeHosts_single_length origin host ⟨host, hmem, rfl⟩, ?_, cur2, ?_, ?_⟩
  · simp only [migrateMoveHost, addHosts_one, Population.addPathogensToHosts,
      List.isEmpty_cons, Bool.false_eq_true, if_false, List.map_cons, List.map_nil]
    rw [h1]
  · rw [h2]
    simp
  · rw [h2]
    exact List.getLast?_concat _
  · rw [h3]
    simp only [List.nil_append, List.map_map]
    rfl

theorem migrateMoveVector_spec (ext : HVExt) (oracle : ℕ → ℕ → ℕ)
    (origin target : Population) (vector : Individual)
    (hmem : vector ∈ origin.vectors)
    (hvalid : ∀ gm ∈ vector.pathogens,
      validGenome target.num_loci target.possible_alleles gm.1 = true)
    (hnodup : (vector.pathogens.map Prod.fst).Nodup)
    (hoid : ∀ w2 ∈ target.vectors, w2.oid < target.next_oid) :
    ∃ o2 t2, migrateMoveVector ext oracle origin target vector = .ok (o2, t2) ∧
      o2.vectors.length + 1 = origin.vectors.length ∧
      t2.vectors.length = target.vectors.length + 1 ∧
      ∃ newVector, t2.vectors.getLast? = some newVector ∧
        newVector.pathogens = vector.pathogens.map (fun gm => (gm.1, 1)) := by
  have hkeys : (vector.pathogens.map (fun gm : String × ℕ => (gm.1, 1))).map Prod.fst
      = vector.pathogens.map Prod.fst := by
    simp [List.map_map]
  obtain ⟨q2, cur2, h1, h2, h3, h4⟩ :=
    addPathAuxVectors_single ext oracle target.next_oid
      (vector.pathogens.map (fun gm => (gm.1, 1))) 0
      (Population.addVectors target 1).1
      target.vectors []
      ({ oid := target.next_oid,
         id := target.id ++ "_" ++ toString (0 + target.vectors.length),
         pathogens := [], sum_fitness := 0,
         coefficient_index := target.coefficients_vectors.length,
         protection_sequences := [] })
      (by
        intro gn hgn
        obtain ⟨gm, _, rfl⟩ := List.mem_map.mp hgn
        rfl)
      (by
        intro gn hgn
        obtain ⟨gm, hgm, rfl⟩ := List.mem_map.mp hgn
        rw [addVectors_one]
        exact hvalid gm hgm)
      (by rw [hkeys]; exact hnodup)
      (by intro gn _; simp)
      (by rw [addVectors_one])
      rfl
      (fun w2m hw2 => ne_of_lt (hoid w2m hw2))
  simp only [addVectors_one] at h1
  refine ⟨Population.removeVectors origin [vector], q2, ?_,
    removeVectors_single_length origin vector ⟨vector, hmem, rfl⟩, ?_, cur2, ?_, ?_⟩
  · simp only [migrateMoveVector, addVectors_one, Population.addPathogensToVectors,
      List.isEmpty_cons, Bool.false_eq_true, if_false, List.map_cons, List.map_nil]
    rw [h1]
  · rw [h2]
    simp
  · rw [h2]
    exact List.getLast?_concat _
  · rw [h3]
    simp only [List.nil_append, List.map_map]
    rfl

/-- C6 (amended).  In the supplied-draw mode, `migrate` moves exactly one
individual: the origin's live count of that kind decreases by exactly 1, the
target's increases by exactly 1, and the newly created target individual
carries exactly the SET of the migrating individual's genomes, each with
multiplicity 1 — the original multiplicities are collapsed by
`{ g:1 for g in host.pathogens }` (see the counterexample), so the full
multiset is not preserved, only its support.  First conjunct: the host path
(`num_hosts == 1`); second: the vector path (any other `num_hosts`). -/
theorem C6_migrate_single_conservation :
    (∀ (ext : HVExt) (oracle : ℕ → ℕ → ℕ) (origin target : Population) (rand : ℚ)
      (nv i : ℕ) (res : ℚ) (host : Individual),
      getWeightedRandom rand (colOf origin.coefficients_hosts Population.MIGRATION)
        = some (i, res) →
      origin.hosts.get? i = some host →
      (∀ gm ∈ host.pathogens,
        validGenome target.num_loci target.possible_alleles gm.1 = true) →
      (host.pathogens.map Prod.fst).Nodup →
      (∀ h2 ∈ target.hosts, h2.oid < target.next_oid) →
      ∃ o2 t2, Population.migrate ext oracle origin target 1 nv (some rand)
          = .ok (o2, t2) ∧
        o2.hosts.length + 1 = origin.hosts.length ∧
        t2.hosts.length = target.hosts.length + 1 ∧
        ∃ newHost, t2.hosts.getLast? = some newHost ∧
          newHost.pathogens = host.pathogens.map (fun gm => (gm.1, 1))) ∧
    (∀ (ext : HVExt) (oracle : ℕ → ℕ → ℕ) (origin target : Population) (rand : ℚ)
      (nh nv i : ℕ) (res : ℚ) (vector : Individual),
      nh ≠ 1 →
      getWeightedRandom rand (colOf origin.coefficients_vectors Population.MIGRATION)
        = some (i, res) →
      origin.vectors.get? i = some vector →
      (∀ gm ∈ vector.pathogens,
        validGenome target.num_loci target.possible_alleles gm.1 = true) →
      (vector.pathogens.map Prod.fst).Nodup →
      (∀ w2 ∈ target.vectors, w2.oid < target.next_oid) →
      ∃ o2 t2, Population.migrate ext oracle origin target nh nv (some rand)
          = .ok (o2, t2) ∧
        o2.vectors.length + 1 = origin.vectors.length ∧
        t2.vectors.length = target.vectors.length + 1 ∧
        ∃ newVector, t2.vectors.getLast? = some newVector ∧
          newVector.pathogens = vector.pathogens.map (fun gm => (gm.1, 1))) := by
  constructor
  · intro ext oracle origin target rand nv i res host hsel hhost hvalid hnodup hoid
    have hmem : host ∈ origin.hosts := List.get?_mem hhost
    obtain ⟨o2, t2, hmv, hlen1, hlen2, newHost, hlast, hpath⟩ :=
      migrateMoveHost_spec ext oracle origin target host hmem hvalid hnodup hoid
    refine ⟨o2, t2, ?_, hlen1, hlen2, newHost, hlast, hpath⟩
    simp only [Population.migrate, hsel, hhost]
    simpa using hmv
  · intro ext oracle origin target rand nh nv i res vector hnh hsel hvec hvalid hnodup hoid
    have hmem : vector ∈ origin.vectors := List.get?_mem hvec
    have hbeq : (nh == 1) = false := by simpa using hnh
    obtain ⟨o2, t2, hmv, hlen1, hlen2, newVector, hlast, hpath⟩ :=
      migrateMoveVector_spec ext oracle origin target vector hmem hvalid hnodup hoid
    refine ⟨o2, t2, ?_, hlen1, hlen2, newVector, hlast, hpath⟩
    simp only [Population.migrate, hbeq, Bool.false_eq_true, if_false, hsel, hvec]
    simpa using hmv

/-- Witness for C6: migrating the single host of `C6origin` (draw 1/2) into
the empty `C6target` moves exactly one host and gives the new target host the
genome set {"A"} with multiplicity 1. -/
theorem C6_witness :
    (getWeightedRandom (1/2) (colOf C6origin.coefficients_hosts Population.MIGRATION)
        = some (0, 1/2) ∧
     C6origin.hosts.get? 0 = some (C6origin.hosts.getD 0 default) ∧
     (∀ gm ∈ (C6origin.hosts.getD 0 default).pathogens,
        validGenome C6target.num_loci C6target.possible_alleles gm.1 = true) ∧
     ((C6origin.hosts.getD 0 default).pathogens.map Prod.fst).Nodup ∧
     (∀ h2 ∈ C6target.hosts, h2.oid < C6target.next_oid)) ∧
    (∃ o2 t2, Population.migrate ext0 ch0 C6origin C6target 1 0 (some (1/2))
        = .ok (o2, t2) ∧
      o2.hosts.length + 1 = C6origin.hosts.length ∧
      t2.hosts.length = C6target.hosts.length + 1 ∧
      ∃ newHost, t2.hosts.getLast? = some newHost ∧
        newHost.pathogens
          = (C6origin.hosts.getD 0 default).pathogens.map (fun gm => (gm.1, 1))) :=
  ⟨⟨of_decide_eq_true (by with_unfolding_all rfl),
    of_decide_eq_true (by with_unfolding_all rfl),
    of_decide_eq_true (by with_unfolding_all rfl),
    of_decide_eq_true (by with_unfolding_all rfl),
    of_decide_eq_true (by with_unfolding_all rfl)⟩,
   C6_migrate_single_conservation.1 ext0 ch0 C6origin C6target (1/2) 0 0 (1/2)
     (C6origin.hosts.getD 0 default)
     (of_decide_eq_true (by with_unfolding_all rfl))
     (of_decide_eq_true (by with_unfolding_all rfl))
     (of_decide_eq_true (by with_unfolding_all rfl))
     (of_decide_eq_true (by with_unfolding_all rfl))
     (of_decide_eq_true (by with_unfolding_all rfl))⟩

theorem find?_map_replace_self (t : ℚ) (v : Snapshot) :
    ∀ (h : List (ℚ × Snapshot)), (h.any (fun kv => kv.1 == t)) = true →
    (h.map (fun kv => if kv.1 == t then (t, v) else kv)).find? (fun kv => kv.1 == t)
      = some (t, v) := by
  intro h
  induction h with
  | nil => intro hany; simp at hany
  | cons kv rest ih =>
    intro hany
    by_cases hk : (kv.1 == t) = true
    · simp only [List.map_cons, if_pos hk]
      rw [List.find?_cons_of_pos (p := fun kv : ℚ × Snapshot => kv.1 == t) _ (by simp)]
    · simp only [List.map_cons, if_neg hk]
      rw [List.find?_cons_of_neg (p := fun kv : ℚ × Snapshot => kv.1 == t) _ hk]
      apply ih
      simp only [List.any_cons] at hany
      cases hkb : (kv.1 == t) with
      | true => exact absurd hkb hk
      | false =>
        rw [hkb] at hany
        simpa using hany

theorem find?_map_replace_ne (t t2 : ℚ) (v : Snapshot) (hne : t2 ≠ t) :
    ∀ (h : List (ℚ × Snapshot)),
    (h.map (fun kv => if kv.1 == t then (t, v) else kv)).find? (fun kv => kv.1 == t2)
      = h.find? (fun kv => kv.1 == t2) := by
  intro h
  induction h with
  | nil => simp
  | cons kv rest ih =>
    by_cases hk : (kv.1 == t) = true
    · have hkt : kv.1 = t := by simpa using hk
      have h1 : ¬ (((t, v) : ℚ × Snapshot).1 == t2) = true := by simpa using (Ne.symm hne)
      have h2 : ¬ (kv.1 == t2) = true := by
        rw [hkt]
        simpa using (Ne.symm hne)
      simp only [List.map_cons, if_pos hk]
      rw [List.find?_cons_of_neg (p := fun kv : ℚ × Snapshot => kv.1 == t2) _ h1,
        List.find?_cons_of_neg (p := fun kv : ℚ × Snapshot => kv.1 == t2) _ h2]
      exact ih
    · simp only [List.map_cons, if_neg hk]
      by_cases hkb : (kv.1 == t2) = true
      · rw [List.find?_cons_of_pos (p := fun kv : ℚ × Snapshot => kv.1 == t2) _ hkb,
          List.find?_cons_of_pos (p := fun kv : ℚ × Snapshot => kv.1 == t2) _ hkb]
      · rw [List.find?_cons_of_neg (p := fun kv : ℚ × Snapshot => kv.1 == t2) _ hkb,
          List.find?_cons_of_neg (p := fun kv : ℚ × Snapshot => kv.1 == t2) _ hkb]
        exact ih

theorem histLookup_insert_self (h : List (ℚ × Snapshot)) (t : ℚ) (v : Snapshot) :
    histLookup (histInsert h t v) t = some v := by
  unfold histInsert
  split
  · rename_i hany
    unfold histLookup
    rw [find?_map_replace_self t v h hany]
    rfl
  · unfold histLookup
    rw [List.find?_append]
    have hnone : h.find? (fun kv => kv.1 == t) = none := by
      rename_i hany
      rw [List.find?_eq_none]
      intro x hx hpx
      exact hany (List.any_eq_true.mpr ⟨x, hx, hpx⟩)
    rw [hnone]
    simp [List.find?]

theorem histLookup_insert_ne (h : List (ℚ × Snapshot)) (t t2 : ℚ) (v : Snapshot)
    (hne : t2 ≠ t) :
    histLookup (histInsert h t v) t2 = histLookup h t2 := by
  unfold histInsert
  split
  · unfold histLookup
    rw [find?_map_replace_ne t t2 v hne h]
  · unfold histLookup
    rw [List.find?_append]
    cases hf : h.find? (fun kv => kv.1 == t2) with
    | some x => simp
    | none =>
      simp only [Option.none_or]
      have hx : ((t, v).1 == t2) = false := by simpa using (Ne.symm hne)
      simp [List.find?, hx]

theorem insertIv_mem (iv : GIv) : ∀ (l : List GIv) (x : GIv),
    x ∈ insertIv iv l → x = iv ∨ x ∈ l := by
  intro l
  induction l with
  | nil => intro x hx; simpa [insertIv] using hx
  | cons a rest ih =>
    intro x hx
    simp only [insertIv] at hx
    split at hx
    · rcases List.mem_cons.mp hx with h | h
      · exact Or.inl h
      · exact Or.inr h
    · rcases List.mem_cons.mp hx with h | h
      · exact Or.inr (h ▸ List.mem_cons_self _ _)
      · rcases ih x h with h2 | h2
        · exact Or.inl h2
        · exact Or.inr (List.mem_cons_of_mem _ h2)

theorem sortIvs_mem : ∀ (l : List GIv) (x : GIv), x ∈ sortIvs l → x ∈ l := by
  intro l
  induction l with
  | nil => intro x hx; simpa [sortIvs] using hx
  | cons a rest ih =>
    intro x hx
    simp only [sortIvs] at hx
    rcases insertIv_mem a (sortIvs rest) x hx with h | h
    · exact h ▸ List.mem_cons_self _ _
    · exact List.mem_cons_of_mem _ (ih x h)

theorem getD_mem_of_lt (l : List GIv) (n : ℕ) (d : GIv) (h : n < l.length) :
    l.getD n d ∈ l := by
  induction l generalizing n with
  | nil => simp at h
  | cons a rest ih =>
    match n with
    | 0 => exact List.mem_cons_self _ _
    | n + 1 =>
      simp only [List.getD_cons_succ]
      exact List.mem_cons_of_mem _ (ih n (by simpa using h))

theorem intervLoop_inv (ivs : List GIv) (v0 : Snapshot)
    (hivt : ∀ iv ∈ ivs, 0 < iv.time) :
    ∀ (fuel : ℕ) (m : ModelG) (t : ℚ) (tr sc : ℕ) (h : List (ℚ × Snapshot))
      (r : List (List ℚ)) (rt : ℚ),
    0 ≤ t → histLookup h 0 = some v0 →
    0 ≤ (intervLoop ivs fuel m t tr sc h r rt).2.1 ∧
    histLookup (intervLoop ivs fuel m t tr sc h r rt).2.2.2.2.1 0 = some v0 := by
  intro fuel
  induction fuel with
  | zero => intro m t tr sc h r rt ht hh; exact ⟨ht, hh⟩
  | succ fuel ih =>
    intro m t tr sc h r rt ht hh
    rw [intervLoop]
    split
    · rename_i hcond
      have hmem : ivs.getD tr default ∈ ivs := getD_mem_of_lt ivs tr default hcond.1
      have hpos : 0 < (ivs.getD tr default).time := hivt _ hmem
      exact ih _ _ _ _ _ _ _ (le_of_lt hpos)
        (by rw [histLookup_insert_ne _ _ _ _ (ne_of_lt hpos)]; exact hh)
    · exact ⟨ht, hh⟩

theorem zeroIntervLoop_t (ivs : List GIv) (hivt : ∀ iv ∈ ivs, 0 < iv.time) :
    ∀ (fuel : ℕ) (m : ModelG) (t : ℚ) (tr : ℕ),
    0 ≤ t → 0 ≤ (zeroIntervLoop ivs fuel m t tr).2.1 := by
  intro fuel
  induction fuel with
  | zero => intro m t tr ht; exact ht
  | succ fuel ih =>
    intro m t tr ht
    rw [zeroIntervLoop]
    split
    · rename_i hcond
      have hmem : ivs.getD tr default ∈ ivs := getD_mem_of_lt ivs tr default hcond.1
      exact ih _ _ _ (le_of_lt (hivt _ hmem))
    · exact ht

theorem runIter_inv (tf : ℚ) (ts : ℤ) (pe : ℕ) (ivs : List GIv) (dts us : ℕ → ℚ)
    (ch : ℕ → ℕ → ℕ → ℕ) (ext : HVExt) (v0 : Snapshot)
    (hivt : ∀ iv ∈ ivs, 0 < iv.time) (hdts : ∀ k, 0 < dts k)
    (s s2 : RState) (hguard : s.t_var < tf)
    (ht : 0 ≤ s.t_var) (hh : histLookup s.hist 0 = some v0)
    (hrun : runIter tf ts pe ivs dts us ch ext s = .ok s2) :
    0 ≤ s2.t_var ∧ histLookup s2.hist 0 = some v0 := by
  have htf : 0 < tf := lt_of_le_of_lt ht hguard
  simp only [runIter] at hrun
  by_cases hpos : 0 < matTotal (getRatesM s.model).2
  case neg =>
    rw [if_neg hpos] at hrun
    by_cases htr : s.tracker < ivs.length
    · rw [if_pos htr] at hrun
      obtain rfl : _ = s2 := Except.ok.inj hrun
      exact ⟨zeroIntervLoop_t ivs hivt _ _ _ _ ht, hh⟩
    · rw [if_neg htr] at hrun
      obtain rfl : _ = s2 := Except.ok.inj hrun
      exact ⟨le_of_lt htf, hh⟩
  case pos =>
    rw [if_pos hpos] at hrun
    by_cases hic : s.tracker < ivs.length ∧
        (ivs.getD s.tracker default).time ≤ s.t_var + dts s.k
    · rw [if_pos hic] at hrun
      rcases hil : intervLoop ivs (ivs.length - s.tracker) (getRatesM s.model).1
          (s.t_var + dts s.k) s.tracker s.sampling_counter s.hist
          (getRatesM s.model).2 (matTotal (getRatesM s.model).2) with
        ⟨m2, t2, tr2, sc2, h2, r2, rt2⟩
      have hinv := intervLoop_inv ivs v0 hivt (ivs.length - s.tracker)
        (getRatesM s.model).1 (s.t_var + dts s.k) s.tracker s.sampling_counter s.hist
        (getRatesM s.model).2 (matTotal (getRatesM s.model).2)
        (le_trans ht (le_add_of_nonneg_right (hdts s.k).le)) hh
      rw [hil] at hinv hrun
      dsimp only at hinv hrun
      by_cases hrt : 0 < rt2
      · rw [if_pos hrt] at hrun
        dsimp only at hrun
        have ht3 : 0 < t2 + dts (s.k + 1) :=
          add_pos_of_nonneg_of_pos hinv.1 (hdts (s.k + 1))
        by_cases hlt : t2 + dts (s.k + 1) < tf
        · rw [if_pos hlt] at hrun
          cases hsel : selectEvent (us (s.k + 1 + 1) * rt2) r2 with
          | none =>
            rw [hsel] at hrun
            obtain rfl : _ = s2 := Except.ok.inj hrun
            exact ⟨ht3.le, hinv.2⟩
          | some epr =>
            obtain ⟨e, p, res⟩ := epr
            rw [hsel] at hrun
            dsimp only at hrun
            cases hda : doAction ext (ch (s.k + 1 + 1 + 1)) m2 e
                ((m2.populations.map Prod.fst).getD p "") res with
            | error er => rw [hda] at hrun; simp [Except.map] at hrun
            | ok mc =>
              obtain ⟨m4, changed⟩ := mc
              rw [hda] at hrun
              simp only [Except.map] at hrun
              obtain rfl : _ = s2 := Except.ok.inj hrun
              split
              · split
                · exact ⟨ht3.le, by
                    rw [histLookup_insert_ne _ _ _ _ (ne_of_lt ht3)]
                    exact hinv.2⟩
                · exact ⟨ht3.le, hinv.2⟩
              · exact ⟨ht3.le, hinv.2⟩
        · rw [if_neg hlt] at hrun
          obtain rfl : _ = s2 := Except.ok.inj hrun
          exact ⟨ht3.le, hinv.2⟩
      · rw [if_neg hrt] at hrun
        dsimp only at hrun
        have hltf : ¬ tf < tf := lt_irrefl tf
        rw [if_neg hltf] at hrun
        obtain rfl : _ = s2 := Except.ok.inj hrun
        exact ⟨htf.le, hinv.2⟩
    · rw [if_neg hic] at hrun
      dsimp only at hrun
      have ht3 : 0 < s.t_var + dts s.k := add_pos_of_nonneg_of_pos ht (hdts s.k)
      by_cases hlt : s.t_var + dts s.k < tf
      · rw [if_pos hlt] at hrun
        cases hsel : selectEvent (us (s.k + 1) * matTotal (getRatesM s.model).2)
            (getRatesM s.model).2 with
        | none =>
          rw [hsel] at hrun
          obtain rfl : _ = s2 := Except.ok.inj hrun
          exact ⟨ht3.le, hh⟩
        | some epr =>
          obtain ⟨e, p, res⟩ := epr
          rw [hsel] at hrun
          dsimp only at hrun
          cases hda : doAction ext (ch (s.k + 1 + 1)) (getRatesM s.model).1 e
              (((getRatesM s.model).1.populations.map Prod.fst).getD p "") res with
          | error er => rw [hda] at hrun; simp [Except.map] at hrun
          | ok mc =>
            obtain ⟨m4, changed⟩ := mc
            rw [hda] at hrun
            simp only [Except.map] at hrun
            obtain rfl : _ = s2 := Except.ok.inj hrun
            split
            · split
              · exact ⟨ht3.le, by
                  rw [histLookup_insert_ne _ _ _ _ (ne_of_lt ht3)]
                  exact hh⟩
              · exact ⟨ht3.le, hh⟩
            · exact ⟨ht3.le, hh⟩
      · rw [if_neg hlt] at hrun
        obtain rfl : _ = s2 := Except.ok.inj hrun
        exact ⟨ht3.le, hh⟩

theorem runLoop_inv (tf : ℚ) (ts : ℤ) (pe : ℕ) (ivs : List GIv) (dts us : ℕ → ℚ)
    (ch : ℕ → ℕ → ℕ → ℕ) (ext : HVExt) (v0 : Snapshot)
    (hivt : ∀ iv ∈ ivs, 0 < iv.time) (hdts : ∀ k, 0 < dts k) :
    ∀ (fuel : ℕ) (s s3 : RState),
    0 ≤ s.t_var → histLookup s.hist 0 = some v0 →
    runLoop tf ts pe ivs dts us ch ext fuel s = .ok (some s3) →
    0 ≤ s3.t_var ∧ histLookup s3.hist 0 = some v0 := by
  intro fuel
  induction fuel with
  | zero =>
    intro s s3 ht hh hloop
    rw [runLoop] at hloop
    split at hloop
    · simp at hloop
    · obtain rfl : _ = s3 := Option.some.inj (Except.ok.inj hloop)
      exact ⟨ht, hh⟩
  | succ fuel ih =>
    intro s s3 ht hh hloop
    rw [runLoop] at hloop
    split at hloop
    · rename_i hguard
      cases hiter : runIter tf ts pe ivs dts us ch ext s with
      | error er => rw [hiter] at hloop; simp [Except.bind] at hloop
      | ok s2 =>
        rw [hiter] at hloop
        simp only [Except.bind] at hloop
        have h2 := runIter_inv tf ts pe ivs dts us ch ext v0 hivt hdts s s2 hguard
          ht hh hiter
        exact ih s2 s3 h2.1 h2.2 hloop
    · obtain rfl : _ = s3 := Option.some.inj (Except.ok.inj hloop)
      exact ⟨ht, hh⟩

/-- C9 (counterexample).  A run with `t0 = 1`, `tf = 2` over the zero-rate
model: the returned history is keyed at 0 and 2 — there is no entry at the
initial time `t0 = 1`, because gillespie.py line 434 creates the history as
`{ 0: cp.deepcopy(self.model) }` with the literal key 0, not `t0`. -/
theorem C9_initial_key_counterexample :
    C9result = .ok (some [(0, .full C5model), (2, .full C5model)]) ∧
    histLookup [(0, Snapshot.full C5model), (2, Snapshot.full C5model)] 1 = none ∧
    (1 : ℚ) ≠ 0 :=
  of_decide_eq_true (by with_unfolding_all rfl)

/-- C9 (amended).  Every terminating run's history contains a full deep-copy
snapshot keyed at the constant 0 (which coincides with `t0` only when
`t0 = 0`) and, at termination, a full deep-copy snapshot keyed at the horizon
`tf`; moreover, with nonnegative `t0`, positive waiting-time draws and no
intervention scheduled at or before time 0, the key-0 entry still holds the
initial model unchanged when the run returns — the snapshot does not alias
the evolving model state. -/
theorem C9_history_keyed_at_zero_and_horizon (fuel : ℕ) (t0 tf : ℚ) (ts : ℤ) (pe : ℕ)
    (ivs : List GIv) (dts us : ℕ → ℚ) (ch : ℕ → ℕ → ℕ → ℕ) (ext : HVExt)
    (m0 : ModelG) (h : List (ℚ × Snapshot))
    (ht0 : 0 ≤ t0) (hivt : ∀ iv ∈ ivs, 0 < iv.time) (hdts : ∀ k, 0 < dts k)
    (hrun : Gillespie.run fuel t0 tf ts pe ivs dts us ch ext m0 = .ok (some h)) :
    histLookup h 0 = some (.full m0) ∧ ∃ mf, histLookup h tf = some (.full mf) := by
  simp only [Gillespie.run] at hrun
  have hivt2 : ∀ iv ∈ sortIvs ivs, 0 < iv.time := fun iv hiv =>
    hivt iv (sortIvs_mem ivs iv hiv)
  cases hloop : runLoop tf ts pe (sortIvs ivs) dts us ch ext fuel
      { model := m0, t_var := t0, tracker := 0, print_counter := 0,
        sampling_counter := 0, k := 0, hist := [(0, .full m0)] } with
  | error er => rw [hloop] at hrun; simp [Except.map] at hrun
  | ok os =>
    rw [hloop] at hrun
    simp only [Except.map, Option.map] at hrun
    cases os with
    | none => simp at hrun
    | some s3 =>
      obtain rfl : _ = h := Option.some.inj (Except.ok.inj hrun)
      have hs0h : histLookup [((0 : ℚ), Snapshot.full m0)] 0 = some (.full m0) := by
        simp [histLookup, List.find?]
      have h3 := runLoop_inv tf ts pe (sortIvs ivs) dts us ch ext (.full m0)
        hivt2 hdts fuel _ s3 ht0 hs0h hloop
      refine ⟨?_, s3.model, histLookup_insert_self _ _ _⟩
      by_cases htf0 : tf = 0
      · subst htf0
        have hdone := runLoop_done 0 ts pe (sortIvs ivs) dts us ch ext fuel
          { model := m0, t_var := t0, tracker := 0, print_counter := 0,
            sampling_counter := 0, k := 0, hist := [(0, .full m0)] }
          (by simpa using not_lt_of_le ht0)
        rw [hloop] at hdone
        have hs3 : s3 =
            { model := m0, t_var := t0, tracker := 0, print_counter := 0,
              sampling_counter := 0, k := 0, hist := [(0, .full m0)] } :=
          Option.some.inj (Except.ok.inj hdone)
        rw [hs3]
        exact histLookup_insert_self _ _ _
      · rw [histLookup_insert_ne _ _ _ _ (by simpa using Ne.symm htf0)]
        exact h3.2

/-- Witness for C9: the zero-rate model run from `t0 = 0` to `tf = 1` with no
interventions terminates with fuel 1, and its history carries the initial
full snapshot at key 0 and a final full snapshot at key 1. -/
theorem C9_witness :
    ((0 : ℚ) ≤ 0 ∧ (∀ iv ∈ ([] : List GIv), 0 < iv.time) ∧ (∀ k, 0 < dts0 k) ∧
     Gillespie.run 1 0 1 0 1000 [] dts0 us0 ch3 ext0 C5model
       = .ok (some [(0, .full C5model), (1, .full C5model)])) ∧
    (histLookup [(0, Snapshot.full C5model), (1, Snapshot.full C5model)] 0
       = some (.full C5model) ∧
     ∃ mf, histLookup [(0, Snapshot.full C5model), (1, Snapshot.full C5model)] 1
       = some (.full mf)) :=
  ⟨⟨le_refl 0, fun iv hiv => absurd hiv (List.not_mem_nil iv),
    fun _ => by norm_num [dts0],
    of_decide_eq_true (by with_unfolding_all rfl)⟩,
   C9_history_keyed_at_zero_and_horizon 1 0 1 0 1000 [] dts0 us0 ch3 ext0 C5model
     [(0, .full C5model), (1, .full C5model)]
     (le_refl 0) (fun iv hiv => absurd hiv (List.not_mem_nil iv))
     (fun _ => by norm_num [dts0])
     (of_decide_eq_true (by with_unfolding_all rfl))⟩
